import Mathlib

/-!
# splendor: vanity import handler

A shallow embedding of `handler.go` and `http.go`.

Go `string` values are modelled by Lean `String` (a sequence of Unicode code
points).  Every string operation the program performs is an operation on whole
code points of valid UTF-8 text: the separator searched for is the ASCII byte
`/`, and the replaced characters are ASCII.  Go `map[string]string` values are
modelled by association lists read with `List.lookup`; a Go `error` is
`Option String`, `none` being `nil`.

`respTmpl` is built with `html/template`, which rewrites every action of the
template into a pipeline of contextual escapers before the first execution.
The escapers are modelled as the package defines them on plain `string`
arguments in the current releases of Go, where an action that follows `url=`
in the `content` attribute of a `meta` element passes the URL filter.
-/

namespace Splendor

set_option maxRecDepth 100000

/-! ## Go runtime and standard library pieces used by the program -/

/-- A Go `error` value: `none` is `nil`. -/
abbrev GoError := Option String

/-- A Go `map[string]string`. -/
abbrev GoMap := List (String × String)

/-- Map assignment `m[k] = v`. -/
def GoMap.assign (m : GoMap) (k v : String) : GoMap :=
  m.filter (fun e => e.1 != k) ++ [(k, v)]

/-- Map index `m[k]` in its two-result form `v, ok := m[k]`. -/
def GoMap.get (m : GoMap) (k : String) : Option String :=
  m.lookup k

/-- The function `strings.HasPrefix`. -/
def HasPrefix (s pfx : String) : Bool :=
  pfx.data.isPrefixOf s.data

/-- The function `strings.TrimPrefix`: `s` without the leading `pfx`, or `s`
itself when it does not start with `pfx`. -/
def TrimPrefix (s pfx : String) : String :=
  if HasPrefix s pfx then ⟨s.data.drop pfx.data.length⟩ else s

/-- Scan for `strings.Index`: `n` is the position of the list in the original. -/
def indexFrom (substr : List Char) : List Char → Nat → Int
  | [], n => if substr.isEmpty then (n : Int) else -1
  | c :: cs, n => if substr.isPrefixOf (c :: cs) then (n : Int) else indexFrom substr cs (n + 1)

/-- The function `strings.Index`: the position of the first instance of
`substr` in `s`, or `-1`.  Positions count code points; the program uses the
result only to slice `s` at that very position. -/
def Index (s substr : String) : Int :=
  indexFrom substr.data s.data 0

/-- The slice expression `s[:i]`. -/
def sliceTo (s : String) (i : Int) : String :=
  ⟨s.data.take i.toNat⟩

/-- The slice expression `s[i:]`. -/
def sliceFrom (s : String) (i : Int) : String :=
  ⟨s.data.drop i.toNat⟩

def MethodGet : String := "GET"

def StatusOK : Int := 200
def StatusTemporaryRedirect : Int := 307
def StatusNotFound : Int := 404
def StatusMethodNotAllowed : Int := 405

/-- The function `http.StatusText` of `net/http`: the reason phrase of a
status code, empty for an unknown code. -/
def StatusText (code : Int) : String :=
  if code = 100 then "Continue"
  else if code = 101 then "Switching Protocols"
  else if code = 102 then "Processing"
  else if code = 103 then "Early Hints"
  else if code = 200 then "OK"
  else if code = 201 then "Created"
  else if code = 202 then "Accepted"
  else if code = 203 then "Non-Authoritative Information"
  else if code = 204 then "No Content"
  else if code = 205 then "Reset Content"
  else if code = 206 then "Partial Content"
  else if code = 207 then "Multi-Status"
  else if code = 208 then "Already Reported"
  else if code = 226 then "IM Used"
  else if code = 300 then "Multiple Choices"
  else if code = 301 then "Moved Permanently"
  else if code = 302 then "Found"
  else if code = 303 then "See Other"
  else if code = 304 then "Not Modified"
  else if code = 305 then "Use Proxy"
  else if code = 307 then "Temporary Redirect"
  else if code = 308 then "Permanent Redirect"
  else if code = 400 then "Bad Request"
  else if code = 401 then "Unauthorized"
  else if code = 402 then "Payment Required"
  else if code = 403 then "Forbidden"
  else if code = 404 then "Not Found"
  else if code = 405 then "Method Not Allowed"
  else if code = 406 then "Not Acceptable"
  else if code = 407 then "Proxy Authentication Required"
  else if code = 408 then "Request Timeout"
  else if code = 409 then "Conflict"
  else if code = 410 then "Gone"
  else if code = 411 then "Length Required"
  else if code = 412 then "Precondition Failed"
  else if code = 413 then "Request Entity Too Large"
  else if code = 414 then "Request URI Too Long"
  else if code = 415 then "Unsupported Media Type"
  else if code = 416 then "Requested Range Not Satisfiable"
  else if code = 417 then "Expectation Failed"
  else if code = 418 then "I\x27m a teapot"
  else if code = 421 then "Misdirected Request"
  else if code = 422 then "Unprocessable Entity"
  else if code = 423 then "Locked"
  else if code = 424 then "Failed Dependency"
  else if code = 425 then "Too Early"
  else if code = 426 then "Upgrade Required"
  else if code = 428 then "Precondition Required"
  else if code = 429 then "Too Many Requests"
  else if code = 431 then "Request Header Fields Too Large"
  else if code = 451 then "Unavailable For Legal Reasons"
  else if code = 500 then "Internal Server Error"
  else if code = 501 then "Not Implemented"
  else if code = 502 then "Bad Gateway"
  else if code = 503 then "Service Unavailable"
  else if code = 504 then "Gateway Timeout"
  else if code = 505 then "HTTP Version Not Supported"
  else if code = 506 then "Variant Also Negotiates"
  else if code = 507 then "Insufficient Storage"
  else if code = 508 then "Loop Detected"
  else if code = 510 then "Not Extended"
  else if code = 511 then "Network Authentication Required"
  else ""

/-- The request of `events.APIGatewayProxyRequest`, with the two fields the
program reads. -/
structure APIGatewayProxyRequest where
  HTTPMethod : String
  Path : String
  deriving DecidableEq, Repr

/-- The response of `events.APIGatewayProxyResponse`, with the three fields the
program sets. -/
structure APIGatewayProxyResponse where
  StatusCode : Int
  Headers : GoMap
  Body : String
  deriving DecidableEq, Repr

/-! ## http.go -/

/-- One replacement of `htmlReplacer`: the five old strings are single
characters, so the replacer rewrites each character on its own, left to right,
in one pass. -/
def htmlReplacerChar (c : Char) : List Char :=
  if c = '&' then "&amp;".data
  else if c = '<' then "&lt;".data
  else if c = '>' then "&gt;".data
  else if c = '"' then "&#34;".data
  else if c = Char.ofNat 39 then "&#39;".data
  else [c]

/-- The function `htmlEscape`: `htmlReplacer.Replace(s)`. -/
def htmlEscape (s : String) : String :=
  ⟨s.data.flatMap htmlReplacerChar⟩

/-- The function `httpRedirect`. -/
def httpRedirect (req : APIGatewayProxyRequest) (url : String) (code : Int) :
    APIGatewayProxyResponse × GoError :=
  let headers : GoMap := [("Location", url)]
  let headers :=
    if req.HTTPMethod == "GET" || req.HTTPMethod == "HEAD" then
      headers.assign "Content-Type" "text/html; charset=utf-8"
    else headers
  let body : String :=
    if req.HTTPMethod == "GET" then
      "<a href=\"" ++ htmlEscape url ++ "\">" ++ StatusText code ++ "</a>.\n"
    else ""
  ({ StatusCode := code, Headers := headers, Body := body }, none)

/-- The function `httpError`. -/
def httpError (_req : APIGatewayProxyRequest) (error : String) (code : Int) :
    APIGatewayProxyResponse × GoError :=
  ({ Headers := [("Content-Type", "text/plain; charset=utf-8"),
                 ("X-Context_type-Options", "nosniff")],
     StatusCode := code,
     Body := error }, none)

/-- The function `httpNotFound`. -/
def httpNotFound (req : APIGatewayProxyRequest) : APIGatewayProxyResponse × GoError :=
  httpError req "404 page not found" StatusNotFound

/-! ## html/template: the escapers the template compiles to

`respTmpl` is an `html/template` template.  At its first execution the package
rewrites every action `{{.X}}` into a pipeline ending in the escapers of the
HTML context the action stands in.  The functions below are those escapers, as
they act on a plain `string` argument. -/

/-- The table `htmlReplacementTable` of `html/template`: the replacement of a
character inside an attribute value, `none` where the table is empty. -/
def htmlReplacementTable (c : Char) : Option String :=
  if c = Char.ofNat 0 then some "\uFFFD"
  else if c = '"' then some "&#34;"
  else if c = '&' then some "&amp;"
  else if c = Char.ofNat 39 then some "&#39;"
  else if c = '+' then some "&#43;"
  else if c = '<' then some "&lt;"
  else if c = '>' then some "&gt;"
  else none

/-- One step of `htmlReplacer(s, htmlReplacementTable, true)`. -/
def attrEscaperChar (c : Char) : List Char :=
  match htmlReplacementTable c with
  | some repl => repl.data
  | none => [c]

/-- The escaper `attrEscaper` (`_html_template_attrescaper`) on a plain string. -/
def attrEscaper (s : String) : String :=
  ⟨s.data.flatMap attrEscaperChar⟩

/-- The UTF-8 encoding of a code point, as the bytes of the Go string. -/
def utf8Bytes (c : Char) : List Nat :=
  let v := c.toNat
  if v < 0x80 then [v]
  else if v < 0x800 then [0xC0 + v / 64, 0x80 + v % 64]
  else if v < 0x10000 then [0xE0 + v / 4096, 0x80 + v / 64 % 64, 0x80 + v % 64]
  else [0xF0 + v / 262144, 0x80 + v / 4096 % 64, 0x80 + v / 64 % 64, 0x80 + v % 64]

/-- A lower-case hexadecimal digit, as printed by the verb `%02x`. -/
def hexDigit (n : Nat) : Char :=
  "0123456789abcdef".data.getD n '0'

/-- The output of `fmt.Fprintf(b, "%%%02x", c)` for a byte `c`. -/
def pctByte (b : Nat) : List Char :=
  ['%', hexDigit (b / 16), hexDigit (b % 16)]

/-- The function `isHex` of `html/template`. -/
def isHex (c : Char) : Bool :=
  ('0' ≤ c && c ≤ '9') || ('a' ≤ c && c ≤ 'f') || ('A' ≤ c && c ≤ 'F')

/-- Whether `processURLOnto(s, true, b)` copies the byte `c`, the rest of the
string after it being `rest`: reserved and unreserved characters are kept, and
so is a `%` that starts a valid escape. -/
def urlKeeps (c : Char) (rest : List Char) : Bool :=
  if c ∈ "!#$&*+,/:;=?@[]".data then true
  else if c ∈ "-._~".data then true
  else if c = '%' then
    match rest with
    | a :: b :: _ => isHex a && isHex b
    | _ => false
  else ('a' ≤ c && c ≤ 'z') || ('A' ≤ c && c ≤ 'Z') || ('0' ≤ c && c ≤ '9')

/-- The loop of `processURLOnto(s, true, b)`: every byte that is not kept is
written as `%xx`; a code point outside ASCII has only such bytes. -/
def processURL : List Char → List Char
  | [] => []
  | c :: rest =>
    if urlKeeps c rest then c :: processURL rest
    else (utf8Bytes c).flatMap pctByte ++ processURL rest

/-- The escaper `urlNormalizer` (`_html_template_urlnormalizer`) on a plain
string. -/
def urlNormalizer (s : String) : String :=
  ⟨processURL s.data⟩

/-- The constant `filterFailsafe` of `html/template`. -/
def filterFailsafe : String := "ZgotmplZ"

/-- One rune of `strings.EqualFold` against a lower-case ASCII letter `x`: the
rune `c` matches when it is `x`, the upper-case form of `x`, or the member
outside ASCII of the simple case-folding orbit of `x` (U+017F for `s`, U+212A
for `k`; no other ASCII letter has one). -/
def foldsTo (c x : Char) : Bool :=
  c.toLower == x || (x == 's' && c == Char.ofNat 0x17F) || (x == 'k' && c == Char.ofNat 0x212A)

/-- The function `strings.EqualFold(s, w)` for a word `w` of lower-case ASCII
letters: the two have the same number of runes and match rune by rune. -/
def EqualFold : List Char → List Char → Bool
  | [], [] => true
  | c :: s, x :: w => foldsTo c x && EqualFold s w
  | _, _ => false

/-- The function `isSafeURL` of `html/template`: a URL is unsafe when it has a
`:`, the text before its first `:` holds no `/`, and that text is none of
`http`, `https`, `mailto` under case folding. -/
def isSafeURL (s : String) : Bool :=
  if s.data.contains ':' then
    let protocol := s.data.takeWhile (fun c => c != ':')
    if protocol.contains '/' then true
    else EqualFold protocol "http".data || EqualFold protocol "https".data
      || EqualFold protocol "mailto".data
  else true

/-- The escaper `urlFilter` (`_html_template_urlfilter`) on a plain string:
an unsafe URL is replaced by `#ZgotmplZ`. -/
def urlFilter (s : String) : String :=
  if isSafeURL s then s else "#" ++ filterFailsafe

/-- The anonymous struct passed to the template. -/
structure TmplData where
  Domain : String
  Prefix : String
  Head : String
  Tail : String
  Repo : String
  deriving DecidableEq, Repr

/-- A field selector `.X` of a template action. -/
inductive Field where
  | Domain | Prefix | Head | Tail | Repo
  deriving DecidableEq, Repr

/-- An escaper that `html/template` appends to an action. -/
inductive Escaper where
  | attrescaper
  | urlnormalizer
  | urlfilter
  deriving DecidableEq, Repr

/-- A node of an escaped template: literal text, or an action with its
pipeline of escapers (applied left to right). -/
inductive Node where
  | text (s : String)
  | action (f : Field) (pipeline : List Escaper)
  deriving DecidableEq, Repr

def Field.eval (d : TmplData) : Field → String
  | .Domain => d.Domain
  | .Prefix => d.Prefix
  | .Head => d.Head
  | .Tail => d.Tail
  | .Repo => d.Repo

def Escaper.apply : Escaper → String → String
  | .attrescaper => attrEscaper
  | .urlnormalizer => urlNormalizer
  | .urlfilter => urlFilter

/-- The text one node writes. -/
def Node.exec (d : TmplData) : Node → String
  | .text s => s
  | .action f pipeline => pipeline.foldl (fun v e => e.apply v) (f.eval d)

/-- The method `Execute` on a template and a `bytes.Buffer` that starts empty:
the content of the buffer afterwards and the error.  Every node appends its text
to the buffer.  Field access on the struct, the escapers and the writes to the
buffer cannot fail, so the error is `nil`. -/
def Execute (t : List Node) (d : TmplData) : String × GoError :=
  (t.foldl (fun buf n => buf ++ n.exec d) "", none)

/-- The pipeline of an action inside a double-quoted attribute that holds no
URL (a `content` attribute before any `url=`). -/
def inAttr : List Escaper := [.attrescaper]

/-- The pipeline of an action inside a double-quoted URL attribute (`href`),
after the literal start of the URL and before any `?` or `#`. -/
def inURLAttr : List Escaper := [.urlnormalizer, .attrescaper]

/-- The pipeline of an action inside the double-quoted `content` attribute of a
`meta` element, after the literal `url=` and before any `;`
(`stateMetaContentURL`). -/
def inMetaContentURL : List Escaper := [.urlfilter, .attrescaper]

/-! ## handler.go -/

def xPrefix : String := "/"
def xDomain : String := "go.brbe.net"
def xPkgIndexURL : String := "https://github.com/nemith"

/-- The package variable `pkgMap`: vanity import name to GitHub project. -/
def pkgMap : GoMap :=
  [("blowme", "nemith/blowme"),
   ("goline", "nemith/goline"),
   ("he", "nemith/he"),
   ("mipples", "nemith/mipples"),
   ("tictac", "nemith/tictac"),
   ("tvdb", "nemith/tvdb"),
   ("splendor", "nemith/splendor")]

/-- The template `respTmpl`, as `html/template` executes it: the literal text
of the source between the actions, and every action with the escapers of its
context.  The `content` attributes of `go-import` and `go-source` hold no
`url=`, so their actions are plain attribute values; the actions of the
`refresh` element follow `url=`; the `href` attribute is a URL. -/
def respTmpl : List Node :=
  [ .text ("<!DOCTYPE html>\n<html>\n<head>\n"
      ++ "<meta http-equiv=\"Content-Type\" content=\"text/html; charset=utf-8\"/>\n"
      ++ "<meta name=\"go-import\" content=\""),
    .action .Domain inAttr, .action .Prefix inAttr, .action .Head inAttr,
    .text " git https://github.com/",
    .action .Repo inAttr,
    .text ("\">" ++ "\n" ++ "<meta name=\"go-source\" content=\""),
    .action .Domain inAttr, .action .Prefix inAttr, .action .Head inAttr,
    .text " https://github.com/",
    .action .Repo inAttr,
    .text "/ https://github.com/",
    .action .Repo inAttr,
    .text "/tree/master\x7b/dir\x7d https://github.com/",
    .action .Repo inAttr,
    .text ("/blob/master\x7b/dir\x7d/\x7bfile\x7d#L\x7bline\x7d" ++ "\">" ++ "\n"
      ++ "<meta http-equiv=\"refresh\" content=\"" ++ "0; url=" ++ "https://godoc.org/"),
    .action .Domain inMetaContentURL, .action .Prefix inMetaContentURL,
    .action .Head inMetaContentURL, .action .Tail inMetaContentURL,
    .text ("\">" ++ "\n</head>\n<body>\nNothing to see here; "
      ++ "<a href=\"" ++ "https://godoc.org/"),
    .action .Domain inURLAttr, .action .Prefix inURLAttr, .action .Head inURLAttr,
    .action .Tail inURLAttr,
    .text ("\">move along</a>" ++ ".\n</body>\n</html>\n") ]

/-- Lines 39 to 42 of `handler.go`: the path without the prefix, split at its
first `/` into `head` and `tail`. -/
def splitPath (path pfx : String) : String × String :=
  let head := TrimPrefix path pfx
  let i := Index head "/"
  if i != -1 then (sliceTo head i, sliceFrom head i) else (head, "")

/-- The closure returned by `handler`, over the outcome `execute` of the call
`respTmpl.Execute(body, data)`: the content of the buffer after the call and
the error.  A non-nil error is logged and otherwise dropped; the buffer is the
body in either case. -/
def handlerOn (execute : TmplData → String × GoError) (domain pfx redirectURL : String)
    (pkgMap : GoMap) (req : APIGatewayProxyRequest) : APIGatewayProxyResponse × GoError :=
  if req.HTTPMethod != MethodGet then
    httpError req "Method not allowed" StatusMethodNotAllowed
  else
    let (head, tail) := splitPath req.Path pfx
    if head == "" then
      httpRedirect req redirectURL StatusTemporaryRedirect
    else
      match pkgMap.get head with
      | none => httpNotFound req
      | some repo =>
        let data : TmplData :=
          { Domain := domain, Prefix := pfx, Head := head, Tail := tail, Repo := repo }
        let (body, _err) := execute data
        ({ StatusCode := 200,
           Headers := [("Cache-Control", "public, max-age=300")],
           Body := body }, none)

/-- The function `handler`: `handlerOn` at the execution of the package
template `respTmpl`. -/
def handler (domain pfx redirectURL : String) (pkgMap : GoMap)
    (req : APIGatewayProxyRequest) : APIGatewayProxyResponse × GoError :=
  handlerOn (Execute respTmpl) domain pfx redirectURL pkgMap req

/-! ## handler_test.go: the test configuration -/

def testPkgMap : GoMap :=
  [("pkg1", "me/pkg1"), ("pkg2", "org/pkg2"), ("pkg3", "org/otherreponame")]

def testHandler : APIGatewayProxyRequest → APIGatewayProxyResponse × GoError :=
  handler "go.example.com" "/x/" "github.com/go/packages" testPkgMap

/-! ## Vocabulary of the statements -/

/-- The text `tag` occurs in `body`. -/
def Occurs (tag body : String) : Prop :=
  tag.data <:+: body.data

instance decidableOccurs (tag body : String) : Decidable (Occurs tag body) :=
  inferInstanceAs (Decidable (tag.data <:+: body.data))

/-- The string `s` starts with a `/`. -/
def startsWithSlash (s : String) : Bool :=
  s.data.head? == some '/'

/-- The string `s` holds a `/`. -/
def hasSlash (s : String) : Bool :=
  s.data.contains '/'

/-- The resolved `head` of a request path (line 39 to 42). -/
def resolvedHead (path pfx : String) : String :=
  (splitPath path pfx).1

/-- The resolved `tail` of a request path (line 39 to 42). -/
def resolvedTail (path pfx : String) : String :=
  (splitPath path pfx).2

/-- The text of the `go-import` element up to the start of its `content`. -/
def goImportOpener : String := "<meta name=\"go-import\" content=\""

/-- The text of the `go-source` element up to the start of its `content`. -/
def goSourceOpener : String := "<meta name=\"go-source\" content=\""

/-- The text of the `refresh` element up to the start of its `content`. -/
def refreshOpener : String := "<meta http-equiv=\"refresh\" content=\""

/-- The text of the `go-import` element with the given text of `content`. -/
def goImportTag (content : String) : String :=
  goImportOpener ++ content ++ "\">"

/-- The text of the `go-source` element with the given text of `content`. -/
def goSourceTag (content : String) : String :=
  goSourceOpener ++ content ++ "\">"

/-- The text of the `refresh` element with the given text of `content`. -/
def refreshTag (content : String) : String :=
  refreshOpener ++ content ++ "\">"

/-- The text of the anchor of the page with the given `href`. -/
def docLink (href : String) : String :=
  "<a href=\"" ++ href ++ "\">move along</a>"

/-- The `go-import` content the specification names: import path, `git`,
repository URL. -/
def goImportContent (domain pfx p r : String) : String :=
  domain ++ pfx ++ p ++ " git https://github.com/" ++ r

/-- The `go-source` content the specification names: import path, home,
directory pattern, file pattern. -/
def goSourceContent (domain pfx p r : String) : String :=
  domain ++ pfx ++ p ++ " https://github.com/" ++ r ++ "/ https://github.com/" ++ r
    ++ "/tree/master\x7b/dir\x7d https://github.com/" ++ r
    ++ "/blob/master\x7b/dir\x7d/\x7bfile\x7d#L\x7bline\x7d"

/-- The documentation URL of a package and sub-path. -/
def docURL (domain pfx p t : String) : String :=
  "https://godoc.org/" ++ domain ++ pfx ++ p ++ t

/-- The `refresh` content the specification names. -/
def refreshContent (domain pfx p t : String) : String :=
  "0; url=" ++ docURL domain pfx p t

/-- The page around its four variable elements: the literal text of `respTmpl`
outside them. -/
def document (goImport goSource refresh link : String) : String :=
  ("<!DOCTYPE html>\n<html>\n<head>\n"
    ++ "<meta http-equiv=\"Content-Type\" content=\"text/html; charset=utf-8\"/>\n")
    ++ goImport ++ "\n" ++ goSource ++ "\n" ++ refresh
    ++ "\n</head>\n<body>\nNothing to see here; " ++ link ++ ".\n</body>\n</html>\n"

/-- The function `convertNewlines` of the HTML tokenizer, as a scan that
remembers whether the last character was a carriage return: `\r\n` and `\r`
are read as `\n`. -/
def convertNewlinesFrom : Bool → List Char → List Char
  | _, [] => []
  | afterCR, c :: rest =>
    if c = '\r' then '\n' :: convertNewlinesFrom true rest
    else if c = '\n' && afterCR then convertNewlinesFrom false rest
    else c :: convertNewlinesFrom false rest

/-- The character reference that starts right after an `&`, read from the text
after the `&`: the character it stands for and the number of characters it
takes.  Only the six references `attrEscaper` writes are known. -/
def referenceAfterAmp (rest : List Char) : Option (Char × Nat) :=
  if "#34;".data.isPrefixOf rest then some ('"', 4)
  else if "amp;".data.isPrefixOf rest then some ('&', 4)
  else if "#39;".data.isPrefixOf rest then some (Char.ofNat 39, 4)
  else if "#43;".data.isPrefixOf rest then some ('+', 4)
  else if "lt;".data.isPrefixOf rest then some ('<', 3)
  else if "gt;".data.isPrefixOf rest then some ('>', 3)
  else none

/-- One pass over the text of an attribute value: `skip` characters of a
reference already read are dropped, an `&` that starts one of the six
references is read as the character of the reference, every other character is
copied. -/
def readReferences : Nat → List Char → List Char
  | _, [] => []
  | skip + 1, _ :: rest => readReferences skip rest
  | 0, c :: rest =>
    if c = '&' then
      match referenceAfterAmp rest with
      | some (ch, n) => ch :: readReferences n rest
      | none => c :: readReferences 0 rest
    else c :: readReferences 0 rest

/-- The value of an attribute as an HTML tokenizer returns it from the text
between the quotes: newlines converted, then character references decoded.  Of
the character references only the six that `attrEscaper` writes are read. -/
def decodeAttr (raw : List Char) : String :=
  ⟨readReferences 0 (convertNewlinesFrom false raw)⟩

/-- The texts that follow the occurrences of `opener` in a text, first
occurrence first. -/
def textsAfter (opener : List Char) : List Char → List (List Char)
  | [] => []
  | c :: cs =>
    if opener.isPrefixOf (c :: cs) then
      (c :: cs).drop opener.length :: textsAfter opener cs
    else textsAfter opener cs

/-- The values of the double-quoted attributes that `opener` opens in `body`:
for each occurrence of `opener`, the text up to the next `"`, decoded. -/
def attrValues (opener body : String) : List String :=
  (textsAfter opener.data body.data).map
    (fun r => decodeAttr (r.takeWhile (fun c => c != '"')))

/-- The body has an element that starts with `opener` and whose attribute
value, decoded, is `content`. -/
def HasContent (opener body content : String) : Prop :=
  content ∈ attrValues opener body

instance decidableHasContent (opener body content : String) :
    Decidable (HasContent opener body content) :=
  inferInstanceAs (Decidable (content ∈ attrValues opener body))

/-- The body has a `refresh` element whose content, decoded, ends with `s`. -/
def refreshEndsWith (body s : String) : Prop :=
  ∃ c ∈ attrValues refreshOpener body, s.data <:+ c.data

instance decidableRefreshEndsWith (body s : String) : Decidable (refreshEndsWith body s) :=
  inferInstanceAs (Decidable (∃ c ∈ attrValues refreshOpener body, s.data <:+ c.data))

/-- The string holds neither NUL, which `attrEscaper` writes as U+FFFD, nor a
carriage return, which the tokenizer reads as a newline: its escaped text is
read back as the string itself. -/
def readsBack (s : String) : Bool :=
  s.data.all (fun c => c ∉ [Char.ofNat 0, '\r'])

/-- The text `raw` of an attribute value reads as `val`: it holds no `"` and
no carriage return, and its character references decode to `val`, whatever
text follows. -/
def Reads (raw val : List Char) : Prop :=
  '"' ∉ raw ∧ '\r' ∉ raw ∧
    ∀ rest, readReferences 0 (raw ++ rest) = val ++ readReferences 0 rest

/-- The string holds none of the seven characters `attrEscaper` rewrites: NUL,
`"`, `&`, the apostrophe, `+`, `<`, `>`. -/
def attrPlain (s : String) : Bool :=
  s.data.all (fun c => c ∉ [Char.ofNat 0, '"', '&', Char.ofNat 39, '+', '<', '>'])

/-- A character both `attrEscaper` and `urlNormalizer` copy wherever it stands:
an ASCII letter or digit, or one of `- . _ ~ ! # $ * , / : ; = ? @ [ ]`. -/
def isVerbatimChar (c : Char) : Bool :=
  ('a' ≤ c && c ≤ 'z') || ('A' ≤ c && c ≤ 'Z') || ('0' ≤ c && c ≤ '9')
    || c ∈ "-._~!#$*,/:;=?@[]".data

/-- The string is made of characters that every escaper of the template copies. -/
def isVerbatim (s : String) : Bool :=
  s.data.all isVerbatimChar

/-- Substitution as the specification words it: the text of the template with
every field written verbatim, no escaper applied. -/
def ExecuteVerbatim (t : List Node) (d : TmplData) : String :=
  t.foldl (fun buf n => buf ++ match n with
    | .text s => s
    | .action f _ => f.eval d) ""

/-- The entity that starts right after an `&`, read from the text after the
`&`: the character it stands for and the number of characters it takes. Only
the five entities `htmlReplacer` writes are known. -/
def entityAfterAmp (rest : List Char) : Option (Char × Nat) :=
  if "amp;".data.isPrefixOf rest then some ('&', 4)
  else if "lt;".data.isPrefixOf rest then some ('<', 3)
  else if "gt;".data.isPrefixOf rest then some ('>', 3)
  else if "#34;".data.isPrefixOf rest then some ('"', 4)
  else if "#39;".data.isPrefixOf rest then some (Char.ofNat 39, 4)
  else none

/-- One pass over the escaped text: `skip` characters of an entity already
read are dropped, an `&` that starts one of the five entities is read as the
character of the entity, every other character is copied. -/
def unescapeChars : Nat → List Char → List Char
  | _, [] => []
  | skip + 1, _ :: rest => unescapeChars skip rest
  | 0, c :: rest =>
    if c = '&' then
      match entityAfterAmp rest with
      | some (ch, n) => ch :: unescapeChars n rest
      | none => c :: unescapeChars 0 rest
    else c :: unescapeChars 0 rest

/-- The inverse of `htmlEscape` on its outputs. -/
def htmlUnescape (s : String) : String :=
  ⟨unescapeChars 0 s.data⟩

/-- The character map the specification gives for `htmlEscape`: the five
characters go to their entities, every other character to itself. -/
def escapeImage (c : Char) : String :=
  if c = '&' then "&amp;"
  else if c = '<' then "&lt;"
  else if c = '>' then "&gt;"
  else if c = '"' then "&#34;"
  else if c = Char.ofNat 39 then "&#39;"
  else String.singleton c

/-- The string holds none of the five characters `& < > " '`. -/
def htmlPlain (s : String) : Bool :=
  s.data.all (fun c => c ∉ ['&', '<', '>', '"', Char.ofNat 39])

/-- The texts that may follow an `&` in escaped text. -/
def entityTails : List String :=
  ["amp;", "lt;", "gt;", "#34;", "#39;"]

/-! ## Path resolution: lemmas -/

theorem TrimPrefix_append (pfx s : String) : TrimPrefix (pfx ++ s) pfx = s := by
  have h : HasPrefix (pfx ++ s) pfx = true := by
    simp [HasPrefix, String.data_append]
  simp [TrimPrefix, h, String.data_append]

theorem indexFrom_slash (l : List Char) (n : Nat) :
    indexFrom ['/'] l n =
      if '/' ∈ l then ((n + (l.takeWhile (fun c => c != '/')).length : Nat) : Int) else -1 := by
  induction l generalizing n with
  | nil => simp [indexFrom]
  | cons c cs ih =>
    by_cases hc : c = '/'
    · subst hc
      simp [indexFrom, List.isPrefixOf]
    · have hc2 : ('/' == c) = false := by
        simp; exact fun h => hc h.symm
      have hc3 : ¬ ('/' = c) := fun h => hc h.symm
      simp [indexFrom, List.isPrefixOf, hc2, ih, hc, hc3, List.takeWhile_cons]
      split <;> omega

theorem splitPath_eq (path pfx : String) :
    splitPath path pfx =
      (⟨(TrimPrefix path pfx).data.takeWhile (fun c => c != '/')⟩,
       ⟨(TrimPrefix path pfx).data.dropWhile (fun c => c != '/')⟩) := by
  have htake : ∀ l : List Char,
      l.take (l.takeWhile (fun c => c != '/')).length = l.takeWhile (fun c => c != '/') := by
    intro l
    exact (List.prefix_iff_eq_take.mp (List.takeWhile_prefix _)).symm
  have hdrop : ∀ l : List Char,
      l.drop (l.takeWhile (fun c => c != '/')).length = l.dropWhile (fun c => c != '/') := by
    intro l
    have h := List.takeWhile_append_dropWhile (fun c => c != '/') l
    have h2 := List.drop_left (l.takeWhile (fun c => c != '/')) (l.dropWhile (fun c => c != '/'))
    rw [h] at h2
    exact h2
  simp only [splitPath, Index, sliceTo, sliceFrom]
  rw [indexFrom_slash]
  by_cases h : '/' ∈ (TrimPrefix path pfx).data
  · simp only [h, if_true]
    have hne :
        ((((List.takeWhile (fun c => c != '/') (TrimPrefix path pfx).data).length : Nat) : Int)
          != -1) = true := by
      simp only [bne_iff_ne, ne_eq]; omega
    simp only [Int.toNat_ofNat, Nat.zero_add, htake, hdrop, hne, if_true]
  · simp only [h, if_false]
    have h1 : List.takeWhile (fun c => c != '/') (TrimPrefix path pfx).data
        = (TrimPrefix path pfx).data := by
      rw [List.takeWhile_eq_self_iff]
      intro c hc
      simp
      rintro rfl
      exact h hc
    have h2 : List.dropWhile (fun c => c != '/') (TrimPrefix path pfx).data = [] := by
      rw [List.dropWhile_eq_nil_iff]
      intro c hc
      simp
      rintro rfl
      exact h hc
    simp [h1, h2]

theorem takeWhile_notSlash_append (p t : List Char) (hp : '/' ∉ p)
    (ht : t = [] ∨ ∃ t', t = '/' :: t') :
    (p ++ t).takeWhile (fun c => c != '/') = p ∧ (p ++ t).dropWhile (fun c => c != '/') = t := by
  induction p with
  | nil =>
    rcases ht with rfl | ⟨t', rfl⟩ <;> simp
  | cons c cs ih =>
    simp at hp
    have := ih hp.2
    have hc : ¬ c = '/' := fun h => hp.1 h.symm
    simp [List.takeWhile_cons, List.dropWhile_cons, hc, this]


theorem resolved_append (pfx p t : String) (hp : hasSlash p = false)
    (ht : t = "" ∨ startsWithSlash t = true) :
    resolvedHead (pfx ++ p ++ t) pfx = p ∧ resolvedTail (pfx ++ p ++ t) pfx = t := by
  have hp2 : '/' ∉ p.data := by
    simpa [hasSlash] using hp
  have ht2 : t.data = [] ∨ ∃ r, t.data = '/' :: r := by
    rcases ht with rfl | h
    · left; rfl
    · right
      simp only [startsWithSlash] at h
      cases hd : t.data with
      | nil => simp [hd] at h
      | cons c r =>
        simp [hd] at h
        exact ⟨r, by rw [h]⟩
  have h := takeWhile_notSlash_append p.data t.data hp2 ht2
  simp only [resolvedHead, resolvedTail, splitPath_eq, String.append_assoc, TrimPrefix_append,
    String.data_append, h, and_self]

theorem resolvedHead_self (pfx : String) : resolvedHead pfx pfx = "" := by
  have h := (resolved_append pfx "" "" (by decide) (Or.inl rfl)).1
  simpa using h

/-! ## The branches of `handler` -/

theorem handlerOn_of_not_get (execute : TmplData → String × GoError)
    (domain pfx redirectURL : String) (pkgMap : GoMap) (req : APIGatewayProxyRequest)
    (h : req.HTTPMethod ≠ "GET") :
    handlerOn execute domain pfx redirectURL pkgMap req
      = httpError req "Method not allowed" StatusMethodNotAllowed := by
  simp [handlerOn, MethodGet, h]

theorem handlerOn_get (execute : TmplData → String × GoError)
    (domain pfx redirectURL : String) (pkgMap : GoMap) (req : APIGatewayProxyRequest)
    (h : req.HTTPMethod = "GET") :
    handlerOn execute domain pfx redirectURL pkgMap req
      = if resolvedHead req.Path pfx = "" then
          httpRedirect req redirectURL StatusTemporaryRedirect
        else
          match pkgMap.get (resolvedHead req.Path pfx) with
          | none => httpNotFound req
          | some repo =>
            ({ StatusCode := 200,
               Headers := [("Cache-Control", "public, max-age=300")],
               Body := (execute
                 { Domain := domain, Prefix := pfx, Head := resolvedHead req.Path pfx,
                   Tail := resolvedTail req.Path pfx, Repo := repo }).1 }, none) := by
  simp only [handlerOn, MethodGet, h, resolvedHead, resolvedTail]
  simp

theorem takeWhile_notSlash_noSlash (l : List Char) :
    (l.takeWhile (fun c => c != '/')).contains '/' = false := by
  rw [Bool.eq_false_iff]
  intro h
  have hm : '/' ∈ l.takeWhile (fun c => c != '/') := by simpa using h
  have := List.mem_takeWhile_imp hm
  simp at this

theorem dropWhile_notSlash_head (l : List Char) :
    l.dropWhile (fun c => c != '/') = [] ∨
      (l.dropWhile (fun c => c != '/')).head? = some '/' := by
  induction l with
  | nil => left; rfl
  | cons c cs ih =>
    by_cases hc : c = '/'
    · right; subst hc; simp
    · simpa [List.dropWhile_cons, hc] using ih

theorem htmlReplacementTable_of_not_special (c : Char)
    (h : c ∉ [Char.ofNat 0, '"', '&', Char.ofNat 39, '+', '<', '>']) :
    htmlReplacementTable c = none := by
  simp only [List.mem_cons, List.mem_singleton, not_or, List.not_mem_nil, or_false] at h
  obtain ⟨h0, h1, h2, h3, h4, h5, h6⟩ := h
  simp [htmlReplacementTable, h0, h1, h2, h3, h4, h5, h6]

theorem flatMap_attrEscaperChar_eq_self (l : List Char)
    (h : ∀ c ∈ l, htmlReplacementTable c = none) : l.flatMap attrEscaperChar = l := by
  induction l with
  | nil => rfl
  | cons c cs ih =>
    have hc := h c (List.mem_cons_self _ _)
    have ih2 := ih (fun x hx => h x (List.mem_cons_of_mem _ hx))
    simp [List.flatMap_cons, attrEscaperChar, hc, ih2]

theorem attrEscaper_of_attrPlain (s : String) (h : attrPlain s = true) : attrEscaper s = s := by
  have h2 : ∀ c ∈ s.data, htmlReplacementTable c = none := by
    intro c hc
    apply htmlReplacementTable_of_not_special
    simp only [attrPlain, List.all_eq_true, decide_eq_true_eq] at h
    exact h c hc
  simp only [attrEscaper, flatMap_attrEscaperChar_eq_self _ h2]

theorem isVerbatimChar_not_special (c : Char) (h : isVerbatimChar c = true) :
    c ∉ [Char.ofNat 0, '"', '&', Char.ofNat 39, '+', '<', '>'] := by
  intro hc
  simp only [List.mem_cons, List.mem_singleton, List.not_mem_nil, or_false] at hc
  rcases hc with rfl | rfl | rfl | rfl | rfl | rfl | rfl <;> exact absurd h (by decide)

theorem urlKeeps_of_isVerbatimChar (c : Char) (rest : List Char) (h : isVerbatimChar c = true) :
    urlKeeps c rest = true := by
  unfold urlKeeps
  split
  · rfl
  · split
    · rfl
    · split
      · rename_i hp
        subst hp
        exact absurd h (by decide)
      · rename_i h1 h2 h3
        simp only [isVerbatimChar, Bool.or_eq_true, decide_eq_true_eq] at h
        rcases h with h | h
        · simpa using h
        · have hsub : ∀ x ∈ "-._~!#$*,/:;=?@[]".data,
              x ∈ "!#$&*+,/:;=?@[]".data ∨ x ∈ "-._~".data := by decide
          rcases hsub c h with h4 | h4
          · exact absurd h4 h1
          · exact absurd h4 h2

theorem processURL_eq_self (l : List Char) (h : ∀ c ∈ l, isVerbatimChar c = true) :
    processURL l = l := by
  induction l with
  | nil => rfl
  | cons c cs ih =>
    have hc := urlKeeps_of_isVerbatimChar c cs (h c (List.mem_cons_self _ _))
    have ih2 := ih (fun x hx => h x (List.mem_cons_of_mem _ hx))
    simp [processURL, hc, ih2]

theorem urlNormalizer_of_isVerbatim (s : String) (h : isVerbatim s = true) :
    urlNormalizer s = s := by
  have h2 : ∀ c ∈ s.data, isVerbatimChar c = true := by
    simpa [isVerbatim, List.all_eq_true] using h
  simp only [urlNormalizer, processURL_eq_self _ h2]

theorem attrPlain_of_isVerbatim (s : String) (h : isVerbatim s = true) : attrPlain s = true := by
  simp only [isVerbatim, List.all_eq_true] at h
  simp only [attrPlain, List.all_eq_true, decide_eq_true_eq]
  intro c hc
  exact isVerbatimChar_not_special c (h c hc)

theorem Execute_respTmpl (d : TmplData) :
    (Execute respTmpl d).1 =
      document
        (goImportTag (goImportContent (attrEscaper d.Domain) (attrEscaper d.Prefix)
          (attrEscaper d.Head) (attrEscaper d.Repo)))
        (goSourceTag (goSourceContent (attrEscaper d.Domain) (attrEscaper d.Prefix)
          (attrEscaper d.Head) (attrEscaper d.Repo)))
        (refreshTag (refreshContent (attrEscaper (urlFilter d.Domain))
          (attrEscaper (urlFilter d.Prefix)) (attrEscaper (urlFilter d.Head))
          (attrEscaper (urlFilter d.Tail))))
        (docLink (docURL (attrEscaper (urlNormalizer d.Domain))
          (attrEscaper (urlNormalizer d.Prefix)) (attrEscaper (urlNormalizer d.Head))
          (attrEscaper (urlNormalizer d.Tail)))) := by
  simp only [Execute, respTmpl, List.foldl, Node.exec, Field.eval, inAttr, inURLAttr,
    inMetaContentURL, goImportOpener, goSourceOpener, refreshOpener,
    Escaper.apply, document, goImportTag, goSourceTag, refreshTag, docLink, goImportContent,
    goSourceContent, refreshContent, docURL, String.append_assoc, String.empty_append]

theorem ExecuteVerbatim_respTmpl (d : TmplData) :
    ExecuteVerbatim respTmpl d =
      document
        (goImportTag (goImportContent d.Domain d.Prefix d.Head d.Repo))
        (goSourceTag (goSourceContent d.Domain d.Prefix d.Head d.Repo))
        (refreshTag (refreshContent d.Domain d.Prefix d.Head d.Tail))
        (docLink (docURL d.Domain d.Prefix d.Head d.Tail)) := by
  simp only [ExecuteVerbatim, respTmpl, List.foldl, Field.eval, document, goImportTag,
    goSourceTag, refreshTag, docLink, goImportContent, goImportOpener, goSourceOpener,
    refreshOpener,
    goSourceContent, refreshContent, docURL, String.append_assoc, String.empty_append]

theorem Occurs.refl (a : String) : Occurs a a := List.infix_refl _

theorem Occurs.trans {a b c : String} (h1 : Occurs a b) (h2 : Occurs b c) : Occurs a c :=
  List.IsInfix.trans h1 h2

theorem Occurs.append_right {t a : String} (b : String) (h : Occurs t a) : Occurs t (a ++ b) := by
  unfold Occurs at *
  rw [String.data_append]
  exact List.IsInfix.trans h (List.infix_append' [] a.data b.data |>.trans (by simp))

theorem Occurs.append_left {t b : String} (a : String) (h : Occurs t b) : Occurs t (a ++ b) := by
  unfold Occurs at *
  rw [String.data_append]
  exact List.IsInfix.trans h (List.suffix_append a.data b.data).isInfix

theorem Occurs_concat (h g1 n1 g2 n2 g3 m l t : String) :
    Occurs g1 (h ++ g1 ++ n1 ++ g2 ++ n2 ++ g3 ++ m ++ l ++ t) ∧
    Occurs g2 (h ++ g1 ++ n1 ++ g2 ++ n2 ++ g3 ++ m ++ l ++ t) ∧
    Occurs g3 (h ++ g1 ++ n1 ++ g2 ++ n2 ++ g3 ++ m ++ l ++ t) ∧
    Occurs l (h ++ g1 ++ n1 ++ g2 ++ n2 ++ g3 ++ m ++ l ++ t) := by
  refine ⟨?_, ?_, ?_, ?_⟩
  · iterate 7 apply Occurs.append_right
    exact Occurs.append_left _ (Occurs.refl _)
  · iterate 5 apply Occurs.append_right
    exact Occurs.append_left _ (Occurs.refl _)
  · iterate 3 apply Occurs.append_right
    exact Occurs.append_left _ (Occurs.refl _)
  · iterate 1 apply Occurs.append_right
    exact Occurs.append_left _ (Occurs.refl _)

theorem Occurs_document (goImport goSource refresh link : String) :
    Occurs goImport (document goImport goSource refresh link) ∧
    Occurs goSource (document goImport goSource refresh link) ∧
    Occurs refresh (document goImport goSource refresh link) ∧
    Occurs link (document goImport goSource refresh link) := by
  unfold document
  exact Occurs_concat _ _ _ _ _ _ _ _ _

/-! ## The responses of `handler`, branch by branch -/

theorem handler_status_cases (domain pfx redirectURL : String) (pkgMap : GoMap)
    (req : APIGatewayProxyRequest) :
    ((handler domain pfx redirectURL pkgMap req).1.StatusCode = 200 ∨
      (handler domain pfx redirectURL pkgMap req).1.StatusCode = 307 ∨
      (handler domain pfx redirectURL pkgMap req).1.StatusCode = 404 ∨
      (handler domain pfx redirectURL pkgMap req).1.StatusCode = 405) ∧
    ((handler domain pfx redirectURL pkgMap req).1.StatusCode = 200 ↔
      req.HTTPMethod = "GET" ∧ resolvedHead req.Path pfx ≠ "" ∧
        pkgMap.get (resolvedHead req.Path pfx) ≠ none) ∧
    ((handler domain pfx redirectURL pkgMap req).1.StatusCode = 307 ↔
      req.HTTPMethod = "GET" ∧ resolvedHead req.Path pfx = "") ∧
    ((handler domain pfx redirectURL pkgMap req).1.StatusCode = 404 ↔
      req.HTTPMethod = "GET" ∧ resolvedHead req.Path pfx ≠ "" ∧
        pkgMap.get (resolvedHead req.Path pfx) = none) ∧
    ((handler domain pfx redirectURL pkgMap req).1.StatusCode = 405 ↔
      req.HTTPMethod ≠ "GET") := by
  by_cases hm : req.HTTPMethod = "GET"
  · rw [handler, handlerOn_get _ _ _ _ _ _ hm]
    by_cases hh : resolvedHead req.Path pfx = ""
    · simp [hh, hm, httpRedirect, StatusTemporaryRedirect]
    · cases hk : pkgMap.get (resolvedHead req.Path pfx) with
      | none => simp [hh, hm, hk, httpNotFound, httpError, StatusNotFound]
      | some repo => simp [hh, hm, hk]
  · rw [handler, handlerOn_of_not_get _ _ _ _ _ _ hm]
    simp [hm, httpError, StatusMethodNotAllowed]

theorem handler_found (domain pfx redirectURL : String) (pkgMap : GoMap)
    (req : APIGatewayProxyRequest) (repo : String) (hm : req.HTTPMethod = "GET")
    (hh : resolvedHead req.Path pfx ≠ "")
    (hk : pkgMap.get (resolvedHead req.Path pfx) = some repo) :
    handler domain pfx redirectURL pkgMap req =
      ({ StatusCode := 200,
         Headers := [("Cache-Control", "public, max-age=300")],
         Body := (Execute respTmpl
           { Domain := domain, Prefix := pfx, Head := resolvedHead req.Path pfx,
             Tail := resolvedTail req.Path pfx, Repo := repo }).1 }, none) := by
  rw [handler, handlerOn_get _ _ _ _ _ _ hm]
  simp [hh, hk]

theorem handler_found_of_status (domain pfx redirectURL : String) (pkgMap : GoMap)
    (req : APIGatewayProxyRequest)
    (h : (handler domain pfx redirectURL pkgMap req).1.StatusCode = 200) :
    req.HTTPMethod = "GET" ∧ resolvedHead req.Path pfx ≠ "" ∧
    ∃ repo, pkgMap.get (resolvedHead req.Path pfx) = some repo ∧
      handler domain pfx redirectURL pkgMap req =
        ({ StatusCode := 200,
           Headers := [("Cache-Control", "public, max-age=300")],
           Body := (Execute respTmpl
             { Domain := domain, Prefix := pfx, Head := resolvedHead req.Path pfx,
               Tail := resolvedTail req.Path pfx, Repo := repo }).1 }, none) := by
  obtain ⟨hm, hne, hk⟩ := (handler_status_cases domain pfx redirectURL pkgMap req).2.1.mp h
  refine ⟨hm, hne, ?_⟩
  cases hk2 : pkgMap.get (resolvedHead req.Path pfx) with
  | none => exact absurd hk2 hk
  | some repo => exact ⟨repo, rfl, handler_found _ _ _ _ _ _ hm hne hk2⟩

theorem handler_known (domain pfx redirectURL : String) (pkgMap : GoMap) (p r t : String)
    (hp : p ≠ "") (hs : hasSlash p = false) (ht : t = "" ∨ startsWithSlash t = true)
    (hk : pkgMap.get p = some r) :
    handler domain pfx redirectURL pkgMap ⟨"GET", pfx ++ p ++ t⟩ =
      ({ StatusCode := 200,
         Headers := [("Cache-Control", "public, max-age=300")],
         Body := document
          (goImportTag (goImportContent (attrEscaper domain) (attrEscaper pfx)
            (attrEscaper p) (attrEscaper r)))
          (goSourceTag (goSourceContent (attrEscaper domain) (attrEscaper pfx)
            (attrEscaper p) (attrEscaper r)))
          (refreshTag (refreshContent (attrEscaper (urlFilter domain))
            (attrEscaper (urlFilter pfx)) (attrEscaper (urlFilter p))
            (attrEscaper (urlFilter t))))
          (docLink (docURL (attrEscaper (urlNormalizer domain))
            (attrEscaper (urlNormalizer pfx)) (attrEscaper (urlNormalizer p))
            (attrEscaper (urlNormalizer t)))) }, none) := by
  obtain ⟨h1, h2⟩ := resolved_append pfx p t hs ht
  have hh : resolvedHead (APIGatewayProxyRequest.mk "GET" (pfx ++ p ++ t)).Path pfx ≠ "" := by
    simpa [h1] using hp
  have hk2 : pkgMap.get (resolvedHead (APIGatewayProxyRequest.mk "GET" (pfx ++ p ++ t)).Path pfx)
      = some r := by
    simpa [h1] using hk
  rw [handler_found domain pfx redirectURL pkgMap _ r rfl hh hk2, Execute_respTmpl]
  simp only [h1, h2]

theorem refreshContent_suffix (domain pfx p t : String) :
    (domain ++ pfx ++ p ++ t).data <:+ (refreshContent domain pfx p t).data := by
  simp only [refreshContent, docURL, String.data_append, List.append_assoc]
  exact (List.suffix_append _ _).trans (List.suffix_append _ _)

/-! ## Reading an attribute value back: lemmas -/

theorem convertNewlinesFrom_of_noCR (l : List Char) (h : '\r' ∉ l) :
    convertNewlinesFrom false l = l := by
  induction l with
  | nil => rfl
  | cons c cs ih =>
    have hc : c ≠ '\r' := fun e => h (e ▸ List.mem_cons_self _ _)
    have h2 : '\r' ∉ cs := fun m => h (List.mem_cons_of_mem _ m)
    simp [convertNewlinesFrom, hc, ih h2]

theorem readReferences_image (c : Char) (rest : List Char) (h0 : c ≠ Char.ofNat 0) :
    readReferences 0 (attrEscaperChar c ++ rest) = c :: readReferences 0 rest := by
  unfold attrEscaperChar htmlReplacementTable
  split_ifs with h1 h2 h3 h4 h5 h6 h7
  · exact absurd h1 h0
  · subst h2
    simp [readReferences, referenceAfterAmp, List.isPrefixOf]
  · subst h3
    simp [readReferences, referenceAfterAmp, List.isPrefixOf]
  · subst h4
    simp [readReferences, referenceAfterAmp, List.isPrefixOf]
  · subst h5
    simp [readReferences, referenceAfterAmp, List.isPrefixOf]
  · subst h6
    simp [readReferences, referenceAfterAmp, List.isPrefixOf]
  · subst h7
    simp [readReferences, referenceAfterAmp, List.isPrefixOf]
  · simp [readReferences, h3]

theorem readReferences_flatMap (l rest : List Char) (h : Char.ofNat 0 ∉ l) :
    readReferences 0 (l.flatMap attrEscaperChar ++ rest) = l ++ readReferences 0 rest := by
  induction l with
  | nil => rfl
  | cons c cs ih =>
    have hc : c ≠ Char.ofNat 0 := fun e => h (e ▸ List.mem_cons_self _ _)
    have h2 : Char.ofNat 0 ∉ cs := fun m => h (List.mem_cons_of_mem _ m)
    rw [List.flatMap_cons, List.append_assoc, readReferences_image c _ hc, ih h2]
    rfl

theorem readReferences_plain (w rest : List Char) (h : '&' ∉ w) :
    readReferences 0 (w ++ rest) = w ++ readReferences 0 rest := by
  induction w with
  | nil => rfl
  | cons c cs ih =>
    have hc : c ≠ '&' := fun e => h (e ▸ List.mem_cons_self _ _)
    have h2 : '&' ∉ cs := fun m => h (List.mem_cons_of_mem _ m)
    simp [readReferences, hc, ih h2]

theorem attrEscaperChar_clean (c x : Char) (hc : c ≠ '\r') (hx : x ∈ attrEscaperChar c) :
    x ≠ '"' ∧ x ≠ '\r' := by
  unfold attrEscaperChar htmlReplacementTable at hx
  split_ifs at hx with h1 h2 h3 h4 h5 h6 h7
  · dsimp only at hx; clear hc; revert x; decide
  · dsimp only at hx; clear hc; revert x; decide
  · dsimp only at hx; clear hc; revert x; decide
  · dsimp only at hx; clear hc; revert x; decide
  · dsimp only at hx; clear hc; revert x; decide
  · dsimp only at hx; clear hc; revert x; decide
  · dsimp only at hx; clear hc; revert x; decide
  · simp only [List.mem_singleton] at hx
    subst hx
    exact ⟨h2, hc⟩

theorem Reads.nil : Reads [] [] :=
  ⟨by simp, by simp, fun _ => rfl⟩

theorem Reads.append {r1 v1 r2 v2 : List Char} (h1 : Reads r1 v1) (h2 : Reads r2 v2) :
    Reads (r1 ++ r2) (v1 ++ v2) := by
  obtain ⟨a1, b1, c1⟩ := h1
  obtain ⟨a2, b2, c2⟩ := h2
  refine ⟨?_, ?_, ?_⟩
  · simp [a1, a2]
  · simp [b1, b2]
  · intro rest
    rw [List.append_assoc, c1, c2, List.append_assoc]

theorem Reads_plain (w : List Char) (hq : '"' ∉ w) (hr : '\r' ∉ w) (ha : '&' ∉ w) :
    Reads w w :=
  ⟨hq, hr, fun rest => readReferences_plain w rest ha⟩

theorem Reads_attrEscaper (s : String) (h : readsBack s = true) :
    Reads (attrEscaper s).data s.data := by
  have h2 : ∀ c ∈ s.data, c ≠ Char.ofNat 0 ∧ c ≠ '\r' := by
    simpa [readsBack, List.all_eq_true] using h
  have hclean : ∀ x ∈ s.data.flatMap attrEscaperChar, x ≠ '"' ∧ x ≠ '\r' := by
    intro x hx
    rw [List.mem_flatMap] at hx
    obtain ⟨c, hc, hxc⟩ := hx
    exact attrEscaperChar_clean c x (h2 c hc).2 hxc
  refine ⟨fun m => (hclean _ m).1 rfl, fun m => (hclean _ m).2 rfl, ?_⟩
  intro rest
  exact readReferences_flatMap s.data rest (fun m => (h2 _ m).1 rfl)

theorem decodeAttr_of_Reads (raw val : List Char) (h : Reads raw val) :
    decodeAttr raw = ⟨val⟩ := by
  obtain ⟨_, hr, hd⟩ := h
  have := hd []
  simp only [List.append_nil, readReferences] at this
  simp only [decodeAttr, convertNewlinesFrom_of_noCR raw hr, this]

theorem textsAfter_head (opener l : List Char) (hl : l ≠ [])
    (hp : opener.isPrefixOf l = true) : l.drop opener.length ∈ textsAfter opener l := by
  cases l with
  | nil => exact absurd rfl hl
  | cons c cs => simp [textsAfter, hp]

theorem mem_textsAfter (a opener x : List Char) (ho : opener ≠ []) :
    x ∈ textsAfter opener (a ++ opener ++ x) := by
  induction a with
  | nil =>
    have hl : opener ++ x ≠ [] := by simp [ho]
    have hp : opener.isPrefixOf (opener ++ x) = true := by simp
    have h := textsAfter_head opener (opener ++ x) hl hp
    rw [List.drop_left] at h
    simpa using h
  | cons c cs ih =>
    simp only [List.cons_append, textsAfter]
    split
    · exact List.mem_cons_of_mem _ (by simpa using ih)
    · simpa using ih

theorem takeWhile_notQuote (raw rest : List Char) (h : '"' ∉ raw) :
    (raw ++ '"' :: rest).takeWhile (fun c => c != '"') = raw := by
  induction raw with
  | nil => simp
  | cons c cs ih =>
    have hc : c ≠ '"' := fun e => h (e ▸ List.mem_cons_self _ _)
    have h2 : '"' ∉ cs := fun m => h (List.mem_cons_of_mem _ m)
    simp [List.takeWhile_cons, hc, ih h2]

theorem HasContent_mid (a opener raw b content : String) (ho : opener.data ≠ [])
    (hr : Reads raw.data content.data) :
    HasContent opener (a ++ (opener ++ raw ++ "\">") ++ b) content := by
  have hm := mem_textsAfter a.data opener.data (raw.data ++ '"' :: ('>' :: b.data)) ho
  have hbody : (a ++ (opener ++ raw ++ "\">") ++ b).data
      = a.data ++ opener.data ++ (raw.data ++ '"' :: ('>' :: b.data)) := by
    simp only [String.data_append, List.append_assoc]
    rfl
  unfold HasContent attrValues
  rw [hbody, List.mem_map]
  refine ⟨_, hm, ?_⟩
  rw [takeWhile_notQuote _ _ hr.1, decodeAttr_of_Reads _ _ hr]

theorem urlFilter_of_isSafeURL (s : String) (h : isSafeURL s = true) : urlFilter s = s := by
  simp [urlFilter, h]

theorem readsBack_urlFilter (s : String) (h : readsBack s = true) :
    readsBack (urlFilter s) = true := by
  unfold urlFilter
  split
  · exact h
  · decide

theorem isSafeURL_of_startsWithSlash (t : String) (h : startsWithSlash t = true) :
    isSafeURL t = true := by
  simp only [startsWithSlash] at h
  cases hd : t.data with
  | nil => simp [hd] at h
  | cons c r =>
    simp [hd] at h
    subst h
    simp [isSafeURL, hd, List.takeWhile_cons]

theorem isSafeURL_empty : isSafeURL "" = true := by decide

theorem Reads_goImportContent (d x p r : String) (hd : readsBack d = true)
    (hx : readsBack x = true) (hp : readsBack p = true) (hr : readsBack r = true) :
    Reads (goImportContent (attrEscaper d) (attrEscaper x) (attrEscaper p) (attrEscaper r)).data
      (goImportContent d x p r).data := by
  simp only [goImportContent, String.data_append]
  exact ((((Reads_attrEscaper d hd).append (Reads_attrEscaper x hx)).append
    (Reads_attrEscaper p hp)).append
    (Reads_plain _ (by decide) (by decide) (by decide))).append (Reads_attrEscaper r hr)

theorem Reads_goSourceContent (d x p r : String) (hd : readsBack d = true)
    (hx : readsBack x = true) (hp : readsBack p = true) (hr : readsBack r = true) :
    Reads (goSourceContent (attrEscaper d) (attrEscaper x) (attrEscaper p) (attrEscaper r)).data
      (goSourceContent d x p r).data := by
  simp only [goSourceContent, String.data_append]
  have R := Reads_attrEscaper r hr
  exact ((((((((((Reads_attrEscaper d hd).append (Reads_attrEscaper x hx)).append
    (Reads_attrEscaper p hp)).append
    (Reads_plain _ (by decide) (by decide) (by decide))).append R).append
    (Reads_plain _ (by decide) (by decide) (by decide))).append R).append
    (Reads_plain _ (by decide) (by decide) (by decide))).append R).append
    (Reads_plain _ (by decide) (by decide) (by decide)))

theorem Reads_refreshContent (d x p t : String) (hd : readsBack d = true)
    (hx : readsBack x = true) (hp : readsBack p = true) (ht : readsBack t = true) :
    Reads (refreshContent (attrEscaper d) (attrEscaper x) (attrEscaper p) (attrEscaper t)).data
      (refreshContent d x p t).data := by
  simp only [refreshContent, docURL, String.data_append]
  exact (Reads_plain _ (by decide) (by decide) (by decide)).append
    (((((Reads_plain _ (by decide) (by decide) (by decide)).append
      (Reads_attrEscaper d hd)).append (Reads_attrEscaper x hx)).append
      (Reads_attrEscaper p hp)).append (Reads_attrEscaper t ht))

theorem HasContent_document_goImport (G S R L vG : String) (hG : Reads G.data vG.data) :
    HasContent goImportOpener (document (goImportTag G) S R L) vG := by
  have e : document (goImportTag G) S R L
      = ("<!DOCTYPE html>\n<html>\n<head>\n"
          ++ "<meta http-equiv=\"Content-Type\" content=\"text/html; charset=utf-8\"/>\n")
        ++ (goImportOpener ++ G ++ "\">")
        ++ ("\n" ++ S ++ "\n" ++ R
            ++ "\n</head>\n<body>\nNothing to see here; " ++ L
            ++ ".\n</body>\n</html>\n") := by
    simp only [document, goImportTag, String.append_assoc]
  rw [e]
  exact HasContent_mid _ _ _ _ _ (by decide) hG

theorem HasContent_document_goSource (G S R L vS : String) (hS : Reads S.data vS.data) :
    HasContent goSourceOpener (document G (goSourceTag S) R L) vS := by
  have e : document G (goSourceTag S) R L
      = (("<!DOCTYPE html>\n<html>\n<head>\n"
          ++ "<meta http-equiv=\"Content-Type\" content=\"text/html; charset=utf-8\"/>\n")
          ++ G ++ "\n")
        ++ (goSourceOpener ++ S ++ "\">")
        ++ ("\n" ++ R
            ++ "\n</head>\n<body>\nNothing to see here; " ++ L
            ++ ".\n</body>\n</html>\n") := by
    simp only [document, goSourceTag, String.append_assoc]
  rw [e]
  exact HasContent_mid _ _ _ _ _ (by decide) hS

theorem HasContent_document_refresh (G S R L vR : String) (hR : Reads R.data vR.data) :
    HasContent refreshOpener (document G S (refreshTag R) L) vR := by
  have e : document G S (refreshTag R) L
      = (("<!DOCTYPE html>\n<html>\n<head>\n"
          ++ "<meta http-equiv=\"Content-Type\" content=\"text/html; charset=utf-8\"/>\n")
          ++ G ++ "\n" ++ S ++ "\n")
        ++ (refreshOpener ++ R ++ "\">")
        ++ ("\n</head>\n<body>\nNothing to see here; " ++ L
            ++ ".\n</body>\n</html>\n") := by
    simp only [document, refreshTag, String.append_assoc]
  rw [e]
  exact HasContent_mid _ _ _ _ _ (by decide) hR

theorem suffix_data_append (a b : String) : b.data <:+ (a ++ b).data := by
  rw [String.data_append]
  exact List.suffix_append _ _

theorem isSafeURL_resolvedTail (path pfx : String) :
    isSafeURL (resolvedTail path pfx) = true := by
  have h : resolvedTail path pfx = "" ∨ startsWithSlash (resolvedTail path pfx) = true := by
    simp only [resolvedTail, splitPath_eq, startsWithSlash]
    rcases dropWhile_notSlash_head (TrimPrefix path pfx).data with h0 | h1
    · left; rw [h0]
    · right; rw [h1]; rfl
  rcases h with h | h
  · rw [h]; exact isSafeURL_empty
  · exact isSafeURL_of_startsWithSlash _ h

/-! ## Claims -/

/-- C1, as the code has it: for a key `p` of the mapping that is non-empty and
holds no `/`, with repository `r`, `GET prefix+p` is answered 200 and the body
holds the `go-import`, `go-source` and `refresh` elements, the fields written
through `attrEscaper` and, in `refresh`, through `urlFilter` first.  Read back
as the test reads them (newlines converted, character references decoded), the
contents of `go-import` and `go-source` are the ones the specification names
when domain, prefix, `p` and `r` hold no NUL and no carriage return; the content
of `refresh` is `0; url=https://godoc.org/` and then domain, prefix and `p`,
each replaced by `#ZgotmplZ` when `isSafeURL` rejects it, so it is the one the
specification names when the three pass `isSafeURL`. -/
theorem get_known_package (domain pfx redirectURL : String) (pkgMap : GoMap) (p r : String)
    (hp : p ≠ "") (hs : hasSlash p = false) (hk : pkgMap.get p = some r) :
    (handler domain pfx redirectURL pkgMap ⟨"GET", pfx ++ p⟩).1.StatusCode = 200 ∧
    Occurs (goImportTag (goImportContent (attrEscaper domain) (attrEscaper pfx)
        (attrEscaper p) (attrEscaper r)))
      (handler domain pfx redirectURL pkgMap ⟨"GET", pfx ++ p⟩).1.Body ∧
    Occurs (goSourceTag (goSourceContent (attrEscaper domain) (attrEscaper pfx)
        (attrEscaper p) (attrEscaper r)))
      (handler domain pfx redirectURL pkgMap ⟨"GET", pfx ++ p⟩).1.Body ∧
    Occurs (refreshTag (refreshContent (attrEscaper (urlFilter domain))
        (attrEscaper (urlFilter pfx)) (attrEscaper (urlFilter p)) ""))
      (handler domain pfx redirectURL pkgMap ⟨"GET", pfx ++ p⟩).1.Body ∧
    (readsBack domain = true → readsBack pfx = true → readsBack p = true →
      readsBack r = true →
      HasContent goImportOpener
        (handler domain pfx redirectURL pkgMap ⟨"GET", pfx ++ p⟩).1.Body
        (goImportContent domain pfx p r) ∧
      HasContent goSourceOpener
        (handler domain pfx redirectURL pkgMap ⟨"GET", pfx ++ p⟩).1.Body
        (goSourceContent domain pfx p r)) ∧
    (readsBack domain = true → readsBack pfx = true → readsBack p = true →
      HasContent refreshOpener
        (handler domain pfx redirectURL pkgMap ⟨"GET", pfx ++ p⟩).1.Body
        (refreshContent (urlFilter domain) (urlFilter pfx) (urlFilter p) "") ∧
      (isSafeURL domain = true → isSafeURL pfx = true → isSafeURL p = true →
        HasContent refreshOpener
          (handler domain pfx redirectURL pkgMap ⟨"GET", pfx ++ p⟩).1.Body
          (refreshContent domain pfx p ""))) := by
  have h := handler_known domain pfx redirectURL pkgMap p r "" hp hs (Or.inl rfl) hk
  rw [String.append_empty] at h
  have he : attrEscaper (urlFilter "") = "" := by decide
  rw [he] at h
  rw [h]
  dsimp only
  obtain ⟨o1, o2, o3, _⟩ := Occurs_document
    (goImportTag (goImportContent (attrEscaper domain) (attrEscaper pfx)
      (attrEscaper p) (attrEscaper r)))
    (goSourceTag (goSourceContent (attrEscaper domain) (attrEscaper pfx)
      (attrEscaper p) (attrEscaper r)))
    (refreshTag (refreshContent (attrEscaper (urlFilter domain))
      (attrEscaper (urlFilter pfx)) (attrEscaper (urlFilter p)) ""))
    (docLink (docURL (attrEscaper (urlNormalizer domain))
      (attrEscaper (urlNormalizer pfx)) (attrEscaper (urlNormalizer p))
      (attrEscaper (urlNormalizer ""))))
  refine ⟨rfl, o1, o2, o3, ?_, ?_⟩
  · intro hd hx hpp hr
    exact ⟨HasContent_document_goImport _ _ _ _ _ (Reads_goImportContent _ _ _ _ hd hx hpp hr),
      HasContent_document_goSource _ _ _ _ _ (Reads_goSourceContent _ _ _ _ hd hx hpp hr)⟩
  · intro hd hx hpp
    have hR := Reads_refreshContent (urlFilter domain) (urlFilter pfx) (urlFilter p) ""
      (readsBack_urlFilter _ hd) (readsBack_urlFilter _ hx) (readsBack_urlFilter _ hpp)
      (by decide)
    have he2 : attrEscaper "" = "" := by decide
    rw [he2] at hR
    have hc := HasContent_document_refresh
      (goImportTag (goImportContent (attrEscaper domain) (attrEscaper pfx)
        (attrEscaper p) (attrEscaper r)))
      (goSourceTag (goSourceContent (attrEscaper domain) (attrEscaper pfx)
        (attrEscaper p) (attrEscaper r)))
      _
      (docLink (docURL (attrEscaper (urlNormalizer domain))
        (attrEscaper (urlNormalizer pfx)) (attrEscaper (urlNormalizer p))
        (attrEscaper (urlNormalizer ""))))
      _ hR
    refine ⟨hc, ?_⟩
    intro sd sx sp
    rw [urlFilter_of_isSafeURL _ sd, urlFilter_of_isSafeURL _ sx,
      urlFilter_of_isSafeURL _ sp] at hc
    rw [urlFilter_of_isSafeURL _ sd, urlFilter_of_isSafeURL _ sx,
      urlFilter_of_isSafeURL _ sp]
    exact hc

/-- C1 at the test configuration: `GET /x/pkg1` is answered 200 and the body
has the `go-import` content `go.example.com/x/pkg1 git https://github.com/me/pkg1`
and the `refresh` content `0; url=https://godoc.org/go.example.com/x/pkg1`. -/
theorem get_known_package_witness :
    testPkgMap.get "pkg1" = some "me/pkg1" ∧
    (handler "go.example.com" "/x/" "github.com/go/packages" testPkgMap
      ⟨"GET", "/x/" ++ "pkg1"⟩).1.StatusCode = 200 ∧
    HasContent goImportOpener
      (handler "go.example.com" "/x/" "github.com/go/packages" testPkgMap
        ⟨"GET", "/x/" ++ "pkg1"⟩).1.Body
      (goImportContent "go.example.com" "/x/" "pkg1" "me/pkg1") ∧
    goImportContent "go.example.com" "/x/" "pkg1" "me/pkg1"
      = "go.example.com/x/pkg1 git https://github.com/me/pkg1" ∧
    HasContent refreshOpener
      (handler "go.example.com" "/x/" "github.com/go/packages" testPkgMap
        ⟨"GET", "/x/" ++ "pkg1"⟩).1.Body
      (refreshContent "go.example.com" "/x/" "pkg1" "") ∧
    refreshContent "go.example.com" "/x/" "pkg1" ""
      = "0; url=https://godoc.org/go.example.com/x/pkg1" :=
  ⟨by decide,
   (get_known_package "go.example.com" "/x/" "github.com/go/packages" testPkgMap
      "pkg1" "me/pkg1" (by decide) (by decide) (by decide)).1,
   ((get_known_package "go.example.com" "/x/" "github.com/go/packages" testPkgMap
      "pkg1" "me/pkg1" (by decide) (by decide) (by decide)).2.2.2.2.1
      (by decide) (by decide) (by decide) (by decide)).1,
   by decide,
   ((get_known_package "go.example.com" "/x/" "github.com/go/packages" testPkgMap
      "pkg1" "me/pkg1" (by decide) (by decide) (by decide)).2.2.2.2.2
      (by decide) (by decide) (by decide)).2 (by decide) (by decide) (by decide),
   by decide⟩

/-- C1 fails as stated.  With the empty string as a key, `GET /x/` is answered
307; with the key `a/b`, `GET /x/a/b` is answered 404; with the domain
`localhost:8080`, the `refresh` content of `GET /x/pkg1` is
`0; url=https://godoc.org/#ZgotmplZ/x/pkg1`; with a repository that holds NUL
or a carriage return, the `go-import` content read back holds U+FFFD or a
newline in its place. -/
theorem get_known_package_counterexample :
    (GoMap.get [("", "me/root")] "" = some "me/root" ∧
      (handler "go.example.com" "/x/" "github.com/go/packages" [("", "me/root")]
        ⟨"GET", "/x/" ++ ""⟩).1.StatusCode = 307) ∧
    (GoMap.get [("a/b", "me/ab")] "a/b" = some "me/ab" ∧
      (handler "go.example.com" "/x/" "github.com/go/packages" [("a/b", "me/ab")]
        ⟨"GET", "/x/" ++ "a/b"⟩).1.StatusCode = 404) ∧
    (testPkgMap.get "pkg1" = some "me/pkg1" ∧
      ¬ HasContent refreshOpener
        (handler "localhost:8080" "/x/" "github.com/go/packages" testPkgMap
          ⟨"GET", "/x/" ++ "pkg1"⟩).1.Body
        "0; url=https://godoc.org/localhost:8080/x/pkg1" ∧
      HasContent refreshOpener
        (handler "localhost:8080" "/x/" "github.com/go/packages" testPkgMap
          ⟨"GET", "/x/" ++ "pkg1"⟩).1.Body
        "0; url=https://godoc.org/#ZgotmplZ/x/pkg1") ∧
    (¬ HasContent goImportOpener
        (handler "go.example.com" "/x/" "github.com/go/packages" [("pkg1", "me/pkg1\x00")]
          ⟨"GET", "/x/" ++ "pkg1"⟩).1.Body
        "go.example.com/x/pkg1 git https://github.com/me/pkg1\x00" ∧
      HasContent goImportOpener
        (handler "go.example.com" "/x/" "github.com/go/packages" [("pkg1", "me/pkg1\x00")]
          ⟨"GET", "/x/" ++ "pkg1"⟩).1.Body
        "go.example.com/x/pkg1 git https://github.com/me/pkg1\uFFFD") ∧
    (¬ HasContent goImportOpener
        (handler "go.example.com" "/x/" "github.com/go/packages" [("pkg1", "me/pkg1\r")]
          ⟨"GET", "/x/" ++ "pkg1"⟩).1.Body
        "go.example.com/x/pkg1 git https://github.com/me/pkg1\r" ∧
      HasContent goImportOpener
        (handler "go.example.com" "/x/" "github.com/go/packages" [("pkg1", "me/pkg1\r")]
          ⟨"GET", "/x/" ++ "pkg1"⟩).1.Body
        "go.example.com/x/pkg1 git https://github.com/me/pkg1\n") := by
  decide

/-- C2, as the code has it: for a key `p` that is non-empty and holds no `/`
and a sub-path `t` starting with `/`, `GET prefix+p+t` is answered 200; the
`go-import` and `go-source` elements are the very ones of `GET prefix+p`, with
the same contents read back; the `refresh` element is written from domain,
prefix and `p` through `urlFilter` and `attrEscaper` and from `t` through
`attrEscaper`.  When domain, prefix, `p` and `t` hold no NUL and no carriage
return, the `refresh` content read back is `0; url=https://godoc.org/`, then
domain, prefix and `p`, each replaced by `#ZgotmplZ` when `isSafeURL` rejects
it, then `t`; so it ends with domain, prefix, `p`, `t` when the three pass
`isSafeURL`. -/
theorem known_package_subpath_refresh (domain pfx redirectURL : String) (pkgMap : GoMap)
    (p r t : String) (hp : p ≠ "") (hs : hasSlash p = false) (hk : pkgMap.get p = some r)
    (ht : startsWithSlash t = true) :
    (handler domain pfx redirectURL pkgMap ⟨"GET", pfx ++ p ++ t⟩).1.StatusCode = 200 ∧
    Occurs (refreshTag (refreshContent (attrEscaper (urlFilter domain))
        (attrEscaper (urlFilter pfx)) (attrEscaper (urlFilter p)) (attrEscaper t)))
      (handler domain pfx redirectURL pkgMap ⟨"GET", pfx ++ p ++ t⟩).1.Body ∧
    (Occurs (goImportTag (goImportContent (attrEscaper domain) (attrEscaper pfx)
          (attrEscaper p) (attrEscaper r)))
        (handler domain pfx redirectURL pkgMap ⟨"GET", pfx ++ p ++ t⟩).1.Body ∧
      Occurs (goImportTag (goImportContent (attrEscaper domain) (attrEscaper pfx)
          (attrEscaper p) (attrEscaper r)))
        (handler domain pfx redirectURL pkgMap ⟨"GET", pfx ++ p⟩).1.Body) ∧
    (Occurs (goSourceTag (goSourceContent (attrEscaper domain) (attrEscaper pfx)
          (attrEscaper p) (attrEscaper r)))
        (handler domain pfx redirectURL pkgMap ⟨"GET", pfx ++ p ++ t⟩).1.Body ∧
      Occurs (goSourceTag (goSourceContent (attrEscaper domain) (attrEscaper pfx)
          (attrEscaper p) (attrEscaper r)))
        (handler domain pfx redirectURL pkgMap ⟨"GET", pfx ++ p⟩).1.Body) ∧
    (readsBack domain = true → readsBack pfx = true → readsBack p = true →
      readsBack r = true →
      (HasContent goImportOpener
          (handler domain pfx redirectURL pkgMap ⟨"GET", pfx ++ p ++ t⟩).1.Body
          (goImportContent domain pfx p r) ∧
        HasContent goImportOpener
          (handler domain pfx redirectURL pkgMap ⟨"GET", pfx ++ p⟩).1.Body
          (goImportContent domain pfx p r)) ∧
      (HasContent goSourceOpener
          (handler domain pfx redirectURL pkgMap ⟨"GET", pfx ++ p ++ t⟩).1.Body
          (goSourceContent domain pfx p r) ∧
        HasContent goSourceOpener
          (handler domain pfx redirectURL pkgMap ⟨"GET", pfx ++ p⟩).1.Body
          (goSourceContent domain pfx p r))) ∧
    (readsBack domain = true → readsBack pfx = true → readsBack p = true →
      readsBack t = true →
      HasContent refreshOpener
        (handler domain pfx redirectURL pkgMap ⟨"GET", pfx ++ p ++ t⟩).1.Body
        (refreshContent (urlFilter domain) (urlFilter pfx) (urlFilter p) t) ∧
      (isSafeURL domain = true → isSafeURL pfx = true → isSafeURL p = true →
        refreshEndsWith
          (handler domain pfx redirectURL pkgMap ⟨"GET", pfx ++ p ++ t⟩).1.Body
          (domain ++ pfx ++ p ++ t))) := by
  have h0 := handler_known domain pfx redirectURL pkgMap p r "" hp hs (Or.inl rfl) hk
  rw [String.append_empty] at h0
  have ht2 := handler_known domain pfx redirectURL pkgMap p r t hp hs (Or.inr ht) hk
  rw [urlFilter_of_isSafeURL t (isSafeURL_of_startsWithSlash t ht)] at ht2
  rw [h0, ht2]
  dsimp only
  obtain ⟨a1, a2, _, _⟩ := Occurs_document
    (goImportTag (goImportContent (attrEscaper domain) (attrEscaper pfx)
      (attrEscaper p) (attrEscaper r)))
    (goSourceTag (goSourceContent (attrEscaper domain) (attrEscaper pfx)
      (attrEscaper p) (attrEscaper r)))
    (refreshTag (refreshContent (attrEscaper (urlFilter domain))
      (attrEscaper (urlFilter pfx)) (attrEscaper (urlFilter p))
      (attrEscaper (urlFilter ""))))
    (docLink (docURL (attrEscaper (urlNormalizer domain))
      (attrEscaper (urlNormalizer pfx)) (attrEscaper (urlNormalizer p))
      (attrEscaper (urlNormalizer ""))))
  obtain ⟨b1, b2, b3, _⟩ := Occurs_document
    (goImportTag (goImportContent (attrEscaper domain) (attrEscaper pfx)
      (attrEscaper p) (attrEscaper r)))
    (goSourceTag (goSourceContent (attrEscaper domain) (attrEscaper pfx)
      (attrEscaper p) (attrEscaper r)))
    (refreshTag (refreshContent (attrEscaper (urlFilter domain))
      (attrEscaper (urlFilter pfx)) (attrEscaper (urlFilter p)) (attrEscaper t)))
    (docLink (docURL (attrEscaper (urlNormalizer domain))
      (attrEscaper (urlNormalizer pfx)) (attrEscaper (urlNormalizer p))
      (attrEscaper (urlNormalizer t))))
  refine ⟨rfl, b3, ⟨b1, a1⟩, ⟨b2, a2⟩, ?_, ?_⟩
  · intro hd hx hpp hr
    have hG := Reads_goImportContent _ _ _ _ hd hx hpp hr
    have hS := Reads_goSourceContent _ _ _ _ hd hx hpp hr
    exact ⟨⟨HasContent_document_goImport _ _ _ _ _ hG,
        HasContent_document_goImport _ _ _ _ _ hG⟩,
      ⟨HasContent_document_goSource _ _ _ _ _ hS,
        HasContent_document_goSource _ _ _ _ _ hS⟩⟩
  · intro hd hx hpp htt
    have hR := Reads_refreshContent (urlFilter domain) (urlFilter pfx) (urlFilter p) t
      (readsBack_urlFilter _ hd) (readsBack_urlFilter _ hx) (readsBack_urlFilter _ hpp) htt
    have hc := HasContent_document_refresh
      (goImportTag (goImportContent (attrEscaper domain) (attrEscaper pfx)
        (attrEscaper p) (attrEscaper r)))
      (goSourceTag (goSourceContent (attrEscaper domain) (attrEscaper pfx)
        (attrEscaper p) (attrEscaper r)))
      _
      (docLink (docURL (attrEscaper (urlNormalizer domain))
        (attrEscaper (urlNormalizer pfx)) (attrEscaper (urlNormalizer p))
        (attrEscaper (urlNormalizer t))))
      _ hR
    refine ⟨hc, ?_⟩
    intro sd sx sp
    have e : refreshContent (urlFilter domain) (urlFilter pfx) (urlFilter p) t
        = refreshContent domain pfx p t := by
      rw [urlFilter_of_isSafeURL _ sd, urlFilter_of_isSafeURL _ sx,
        urlFilter_of_isSafeURL _ sp]
    have hsuf : (domain ++ pfx ++ p ++ t).data
        <:+ (refreshContent (urlFilter domain) (urlFilter pfx) (urlFilter p) t).data := by
      rw [e]
      exact refreshContent_suffix domain pfx p t
    exact ⟨_, hc, hsuf⟩

/-- C2 at the test configuration: `GET /x/pkg1/sub/pkg` is answered 200 and its
`refresh` content ends with `go.example.com/x/pkg1/sub/pkg`. -/
theorem known_package_subpath_refresh_witness :
    testPkgMap.get "pkg1" = some "me/pkg1" ∧
    (handler "go.example.com" "/x/" "github.com/go/packages" testPkgMap
      ⟨"GET", "/x/" ++ "pkg1" ++ "/sub/pkg"⟩).1.StatusCode = 200 ∧
    refreshEndsWith
      (handler "go.example.com" "/x/" "github.com/go/packages" testPkgMap
        ⟨"GET", "/x/" ++ "pkg1" ++ "/sub/pkg"⟩).1.Body
      ("go.example.com" ++ "/x/" ++ "pkg1" ++ "/sub/pkg") :=
  ⟨by decide,
   (known_package_subpath_refresh "go.example.com" "/x/" "github.com/go/packages" testPkgMap
      "pkg1" "me/pkg1" "/sub/pkg" (by decide) (by decide) (by decide) (by decide)).1,
   ((known_package_subpath_refresh "go.example.com" "/x/" "github.com/go/packages" testPkgMap
      "pkg1" "me/pkg1" "/sub/pkg" (by decide) (by decide) (by decide) (by decide)).2.2.2.2.2
      (by decide) (by decide) (by decide) (by decide)).2 (by decide) (by decide) (by decide)⟩

/-- C2 fails as stated.  With the empty string as a key, `GET /x//sub` is
answered 307 and its body has no `refresh` element; with the key `a/b`,
`GET /x/a/b/sub` is answered 404, again without one; with the domain
`localhost:8080` the `refresh` content of `GET /x/pkg1/sub` is
`0; url=https://godoc.org/#ZgotmplZ/x/pkg1/sub`; and for the sub-paths `/a`,
NUL, `b` and `/a`, carriage return, `b` the content read back does not end
with the sub-path: NUL is not written as NUL and a carriage return is read as
a newline. -/
theorem known_package_subpath_refresh_counterexample :
    (GoMap.get [("", "me/root")] "" = some "me/root" ∧
      (handler "go.example.com" "/x/" "github.com/go/packages" [("", "me/root")]
        ⟨"GET", "/x/" ++ "" ++ "/sub"⟩).1.StatusCode = 307 ∧
      ¬ refreshEndsWith
        (handler "go.example.com" "/x/" "github.com/go/packages" [("", "me/root")]
          ⟨"GET", "/x/" ++ "" ++ "/sub"⟩).1.Body
        ("go.example.com" ++ "/x/" ++ "" ++ "/sub")) ∧
    (GoMap.get [("a/b", "me/ab")] "a/b" = some "me/ab" ∧
      (handler "go.example.com" "/x/" "github.com/go/packages" [("a/b", "me/ab")]
        ⟨"GET", "/x/" ++ "a/b" ++ "/sub"⟩).1.StatusCode = 404 ∧
      ¬ refreshEndsWith
        (handler "go.example.com" "/x/" "github.com/go/packages" [("a/b", "me/ab")]
          ⟨"GET", "/x/" ++ "a/b" ++ "/sub"⟩).1.Body
        ("go.example.com" ++ "/x/" ++ "a/b" ++ "/sub")) ∧
    (testPkgMap.get "pkg1" = some "me/pkg1" ∧
      ¬ refreshEndsWith
        (handler "localhost:8080" "/x/" "github.com/go/packages" testPkgMap
          ⟨"GET", "/x/" ++ "pkg1" ++ "/sub"⟩).1.Body
        ("localhost:8080" ++ "/x/" ++ "pkg1" ++ "/sub") ∧
      HasContent refreshOpener
        (handler "localhost:8080" "/x/" "github.com/go/packages" testPkgMap
          ⟨"GET", "/x/" ++ "pkg1" ++ "/sub"⟩).1.Body
        "0; url=https://godoc.org/#ZgotmplZ/x/pkg1/sub") ∧
    (startsWithSlash "/a\x00b" = true ∧
      ¬ refreshEndsWith
        (handler "go.example.com" "/x/" "github.com/go/packages" testPkgMap
          ⟨"GET", "/x/" ++ "pkg1" ++ "/a\x00b"⟩).1.Body
        ("go.example.com" ++ "/x/" ++ "pkg1" ++ "/a\x00b")) ∧
    (startsWithSlash "/a\rb" = true ∧
      ¬ refreshEndsWith
        (handler "go.example.com" "/x/" "github.com/go/packages" testPkgMap
          ⟨"GET", "/x/" ++ "pkg1" ++ "/a\rb"⟩).1.Body
        ("go.example.com" ++ "/x/" ++ "pkg1" ++ "/a\rb")) := by
  decide

/-- C3: a request whose method is not exactly `GET` is answered 405, whatever
the path, the prefix and the mapping are; its status is never 307, 404 or 200. -/
theorem non_get_is_method_not_allowed (domain pfx redirectURL : String) (pkgMap : GoMap)
    (req : APIGatewayProxyRequest) (h : req.HTTPMethod ≠ "GET") :
    (handler domain pfx redirectURL pkgMap req).1.StatusCode = 405 ∧
    (handler domain pfx redirectURL pkgMap req).1.StatusCode ≠ 307 ∧
    (handler domain pfx redirectURL pkgMap req).1.StatusCode ≠ 404 ∧
    (handler domain pfx redirectURL pkgMap req).1.StatusCode ≠ 200 := by
  rw [handler, handlerOn_of_not_get _ _ _ _ _ _ h]
  simp [httpError, StatusMethodNotAllowed]

/-- C3 at the test configuration: `HEAD /x/pkg1`, a known package, is answered
405. -/
theorem non_get_is_method_not_allowed_witness :
    ("HEAD" : String) ≠ "GET" ∧
    (handler "go.example.com" "/x/" "github.com/go/packages" testPkgMap
      ⟨"HEAD", "/x/pkg1"⟩).1.StatusCode = 405 :=
  ⟨by decide,
   (non_get_is_method_not_allowed "go.example.com" "/x/" "github.com/go/packages" testPkgMap
      ⟨"HEAD", "/x/pkg1"⟩ (by decide)).1⟩

/-- C4: a `GET` whose path is exactly the prefix is answered 307 with the
header `Location` equal to the configured fallback URL, unchanged, for every
mapping (also one that has the empty string as a key). -/
theorem get_prefix_redirects_to_fallback (domain pfx redirectURL : String) (pkgMap : GoMap) :
    (handler domain pfx redirectURL pkgMap ⟨"GET", pfx⟩).1.StatusCode = 307 ∧
    (handler domain pfx redirectURL pkgMap ⟨"GET", pfx⟩).1.Headers.get "Location"
      = some redirectURL := by
  rw [handler, handlerOn_get _ _ _ _ _ _ rfl]
  simp [resolvedHead_self, httpRedirect, StatusTemporaryRedirect, GoMap.get, GoMap.assign,
    List.lookup]

/-- C5: a `GET` to prefix, then a non-empty name `n` without `/` that is not a
key of the mapping, then an optional sub-path (empty or starting with `/`), is
answered 404 with the body `404 page not found`.  Keys are compared as exact
strings, so a name that differs from a key in letter case only is not a key and
falls under this statement. -/
theorem get_unknown_is_not_found (domain pfx redirectURL : String) (pkgMap : GoMap)
    (n t : String) (hn : n ≠ "") (hs : hasSlash n = false)
    (ht : t = "" ∨ startsWithSlash t = true) (hk : pkgMap.get n = none) :
    (handler domain pfx redirectURL pkgMap ⟨"GET", pfx ++ n ++ t⟩).1.StatusCode = 404 ∧
    (handler domain pfx redirectURL pkgMap ⟨"GET", pfx ++ n ++ t⟩).1.Body
      = "404 page not found" := by
  rw [handler, handlerOn_get _ _ _ _ _ _ rfl]
  simp [(resolved_append pfx n t hs ht).1, hn, hk, httpNotFound, httpError, StatusNotFound]

/-- C5 at the test configuration: `PKG1` differs from the key `pkg1` in letter
case only, and `GET /x/PKG1/sub` is answered 404. -/
theorem get_unknown_is_not_found_witness :
    testPkgMap.get "pkg1" = some "me/pkg1" ∧
    (handler "go.example.com" "/x/" "github.com/go/packages" testPkgMap
      ⟨"GET", "/x/" ++ "PKG1" ++ "/sub"⟩).1.StatusCode = 404 ∧
    (handler "go.example.com" "/x/" "github.com/go/packages" testPkgMap
      ⟨"GET", "/x/" ++ "PKG1" ++ "/sub"⟩).1.Body = "404 page not found" :=
  ⟨by decide,
   get_unknown_is_not_found "go.example.com" "/x/" "github.com/go/packages" testPkgMap
     "PKG1" "/sub" (by decide) (by decide) (Or.inr (by decide)) (by decide)⟩

/-- C6, as the code has it: the status of every response is 200, 307, 404 or
405; it is 200 exactly when the method is `GET` and the head is non-empty and a
key of the mapping; 307 exactly when the method is `GET` and the head is empty;
404 exactly when the method is `GET` and the head is non-empty and not a key. -/
theorem status_code_cases (domain pfx redirectURL : String) (pkgMap : GoMap)
    (req : APIGatewayProxyRequest) :
    ((handler domain pfx redirectURL pkgMap req).1.StatusCode = 200 ∨
      (handler domain pfx redirectURL pkgMap req).1.StatusCode = 307 ∨
      (handler domain pfx redirectURL pkgMap req).1.StatusCode = 404 ∨
      (handler domain pfx redirectURL pkgMap req).1.StatusCode = 405) ∧
    ((handler domain pfx redirectURL pkgMap req).1.StatusCode = 200 ↔
      req.HTTPMethod = "GET" ∧ resolvedHead req.Path pfx ≠ "" ∧
        pkgMap.get (resolvedHead req.Path pfx) ≠ none) ∧
    ((handler domain pfx redirectURL pkgMap req).1.StatusCode = 307 ↔
      req.HTTPMethod = "GET" ∧ resolvedHead req.Path pfx = "") ∧
    ((handler domain pfx redirectURL pkgMap req).1.StatusCode = 404 ↔
      req.HTTPMethod = "GET" ∧ resolvedHead req.Path pfx ≠ "" ∧
        pkgMap.get (resolvedHead req.Path pfx) = none) := by
  obtain ⟨h1, h2, h3, h4, _⟩ := handler_status_cases domain pfx redirectURL pkgMap req
  exact ⟨h1, h2, h3, h4⟩

/-- C6 fails as stated: with the empty string as a key of the mapping, `GET /x/`
has the empty head, which is a key, and the status is 307, not 200. -/
theorem status_code_cases_counterexample :
    (handler "go.example.com" "/x/" "github.com/go/packages" [("", "me/root")]
      ⟨"GET", "/x/"⟩).1.StatusCode = 307 ∧
    resolvedHead "/x/" "/x/" = "" ∧
    GoMap.get [("", "me/root")] (resolvedHead "/x/" "/x/") = some "me/root" ∧
    ¬ ((handler "go.example.com" "/x/" "github.com/go/packages" [("", "me/root")]
        ⟨"GET", "/x/"⟩).1.StatusCode = 200 ↔
       (("GET" : String) = "GET" ∧
        GoMap.get [("", "me/root")] (resolvedHead "/x/" "/x/") ≠ none)) := by
  decide

/-- C7, as the code has it: the body of every response answered 200 is the
page of `respTmpl` in which domain, prefix, head and repository are written
through `attrEscaper` in the `content` of `go-import` and `go-source`; domain,
prefix, head and tail through `urlFilter` and then `attrEscaper` in the
`content` of `refresh`; and domain, prefix, head and tail through
`urlNormalizer` and then `attrEscaper` in the `href`.  When the five fields are
made of ASCII letters, digits and the characters
`- . _ ~ ! # $ * , / : ; = ? @ [ ]` only, and domain, prefix and head pass
`isSafeURL`, the body is the template with the fields substituted verbatim. -/
theorem found_body_is_escaped_template (domain pfx redirectURL : String) (pkgMap : GoMap)
    (req : APIGatewayProxyRequest)
    (h : (handler domain pfx redirectURL pkgMap req).1.StatusCode = 200) :
    ∃ repo, pkgMap.get (resolvedHead req.Path pfx) = some repo ∧
      (handler domain pfx redirectURL pkgMap req).1.Body =
        document
          (goImportTag (goImportContent (attrEscaper domain) (attrEscaper pfx)
            (attrEscaper (resolvedHead req.Path pfx)) (attrEscaper repo)))
          (goSourceTag (goSourceContent (attrEscaper domain) (attrEscaper pfx)
            (attrEscaper (resolvedHead req.Path pfx)) (attrEscaper repo)))
          (refreshTag (refreshContent (attrEscaper (urlFilter domain))
            (attrEscaper (urlFilter pfx))
            (attrEscaper (urlFilter (resolvedHead req.Path pfx)))
            (attrEscaper (urlFilter (resolvedTail req.Path pfx)))))
          (docLink (docURL (attrEscaper (urlNormalizer domain))
            (attrEscaper (urlNormalizer pfx))
            (attrEscaper (urlNormalizer (resolvedHead req.Path pfx)))
            (attrEscaper (urlNormalizer (resolvedTail req.Path pfx))))) ∧
      (isVerbatim domain = true → isVerbatim pfx = true →
        isVerbatim (resolvedHead req.Path pfx) = true →
        isVerbatim (resolvedTail req.Path pfx) = true → isVerbatim repo = true →
        isSafeURL domain = true → isSafeURL pfx = true →
        isSafeURL (resolvedHead req.Path pfx) = true →
        (handler domain pfx redirectURL pkgMap req).1.Body =
          ExecuteVerbatim respTmpl
            { Domain := domain, Prefix := pfx, Head := resolvedHead req.Path pfx,
              Tail := resolvedTail req.Path pfx, Repo := repo }) := by
  obtain ⟨_, _, repo, hk, hr⟩ := handler_found_of_status domain pfx redirectURL pkgMap req h
  refine ⟨repo, hk, ?_, ?_⟩
  · rw [hr, Execute_respTmpl]
  · intro v1 v2 v3 v4 v5 s1 s2 s3
    rw [hr, Execute_respTmpl, ExecuteVerbatim_respTmpl]
    dsimp only
    rw [urlFilter_of_isSafeURL _ s1, urlFilter_of_isSafeURL _ s2,
      urlFilter_of_isSafeURL _ s3,
      urlFilter_of_isSafeURL _ (isSafeURL_resolvedTail req.Path pfx),
      urlNormalizer_of_isVerbatim _ v1, urlNormalizer_of_isVerbatim _ v2,
      urlNormalizer_of_isVerbatim _ v3, urlNormalizer_of_isVerbatim _ v4,
      attrEscaper_of_attrPlain _ (attrPlain_of_isVerbatim _ v1),
      attrEscaper_of_attrPlain _ (attrPlain_of_isVerbatim _ v2),
      attrEscaper_of_attrPlain _ (attrPlain_of_isVerbatim _ v3),
      attrEscaper_of_attrPlain _ (attrPlain_of_isVerbatim _ v4),
      attrEscaper_of_attrPlain _ (attrPlain_of_isVerbatim _ v5)]

/-- C7 at the test configuration: `GET /x/pkg1/sub/pkg` is answered 200 and its
body is the template with the five fields substituted verbatim. -/
theorem found_body_is_escaped_template_witness :
    (handler "go.example.com" "/x/" "github.com/go/packages" testPkgMap
      ⟨"GET", "/x/pkg1/sub/pkg"⟩).1.StatusCode = 200 ∧
    ∃ repo, testPkgMap.get (resolvedHead "/x/pkg1/sub/pkg" "/x/") = some repo ∧
      (handler "go.example.com" "/x/" "github.com/go/packages" testPkgMap
        ⟨"GET", "/x/pkg1/sub/pkg"⟩).1.Body =
        ExecuteVerbatim respTmpl
          { Domain := "go.example.com", Prefix := "/x/",
            Head := resolvedHead "/x/pkg1/sub/pkg" "/x/",
            Tail := resolvedTail "/x/pkg1/sub/pkg" "/x/", Repo := repo } := by
  refine ⟨by decide, ?_⟩
  obtain ⟨repo, hk, _, hv⟩ :=
    found_body_is_escaped_template "go.example.com" "/x/" "github.com/go/packages" testPkgMap
      ⟨"GET", "/x/pkg1/sub/pkg"⟩ (by decide)
  have hrepo : repo = "me/pkg1" := by
    have h2 : testPkgMap.get (resolvedHead "/x/pkg1/sub/pkg" "/x/") = some "me/pkg1" := by
      decide
    exact (Option.some.inj (hk.symm.trans h2))
  subst hrepo
  exact ⟨"me/pkg1", hk,
    hv (by decide) (by decide) (by decide) (by decide) (by decide)
      (by decide) (by decide) (by decide)⟩

/-- C7 fails as stated.  For the key `c++`, `GET /x/c++/a b` is answered 200 and
the body is not the template with the fields substituted verbatim: the head is
written `c&#43;&#43;` and, in the `href`, the tail is written `/a%20b`.  For the
domain `localhost:8080`, made of letters, digits and `:` only, the body of
`GET /x/pkg1` is not the verbatim template either: the `refresh` element holds
`#ZgotmplZ` in place of the domain. -/
theorem found_body_is_escaped_template_counterexample :
    ((handler "go.example.com" "/x/" "github.com/go/packages" [("c++", "me/cpp")]
        ⟨"GET", "/x/c++/a b"⟩).1.StatusCode = 200 ∧
      (handler "go.example.com" "/x/" "github.com/go/packages" [("c++", "me/cpp")]
        ⟨"GET", "/x/c++/a b"⟩).1.Body ≠
        ExecuteVerbatim respTmpl
          { Domain := "go.example.com", Prefix := "/x/", Head := "c++", Tail := "/a b",
            Repo := "me/cpp" } ∧
      Occurs (goImportTag "go.example.com/x/c&#43;&#43; git https://github.com/me/cpp")
        (handler "go.example.com" "/x/" "github.com/go/packages" [("c++", "me/cpp")]
          ⟨"GET", "/x/c++/a b"⟩).1.Body ∧
      Occurs (docLink "https://godoc.org/go.example.com/x/c&#43;&#43;/a%20b")
        (handler "go.example.com" "/x/" "github.com/go/packages" [("c++", "me/cpp")]
          ⟨"GET", "/x/c++/a b"⟩).1.Body) ∧
    (isVerbatim "localhost:8080" = true ∧
      (handler "localhost:8080" "/x/" "github.com/go/packages" testPkgMap
        ⟨"GET", "/x/pkg1"⟩).1.StatusCode = 200 ∧
      (handler "localhost:8080" "/x/" "github.com/go/packages" testPkgMap
        ⟨"GET", "/x/pkg1"⟩).1.Body ≠
        ExecuteVerbatim respTmpl
          { Domain := "localhost:8080", Prefix := "/x/", Head := "pkg1", Tail := "",
            Repo := "me/pkg1" } ∧
      Occurs (refreshTag "0; url=https://godoc.org/#ZgotmplZ/x/pkg1")
        (handler "localhost:8080" "/x/" "github.com/go/packages" testPkgMap
          ⟨"GET", "/x/pkg1"⟩).1.Body) := by
  decide

/-- C8 at two requests of the test configuration: the 405 answer to
`POST /x/pkg1` and the 404 answer to `GET /x/willnevereverexist` carry
`Content-Type: text/plain; charset=utf-8`, and no header `X-Content-Type-Options`:
the `nosniff` value is stored under the key `X-Context_type-Options`. -/
theorem error_headers_lack_nosniff :
    ((testHandler ⟨"POST", "/x/pkg1"⟩).1.StatusCode = 405 ∧
      (testHandler ⟨"POST", "/x/pkg1"⟩).1.Headers.get "Content-Type"
        = some "text/plain; charset=utf-8" ∧
      (testHandler ⟨"POST", "/x/pkg1"⟩).1.Headers.get "X-Content-Type-Options" = none ∧
      (testHandler ⟨"POST", "/x/pkg1"⟩).1.Headers.get "X-Context_type-Options"
        = some "nosniff") ∧
    ((testHandler ⟨"GET", "/x/willnevereverexist"⟩).1.StatusCode = 404 ∧
      (testHandler ⟨"GET", "/x/willnevereverexist"⟩).1.Headers.get "Content-Type"
        = some "text/plain; charset=utf-8" ∧
      (testHandler ⟨"GET", "/x/willnevereverexist"⟩).1.Headers.get "X-Content-Type-Options"
        = none ∧
      (testHandler ⟨"GET", "/x/willnevereverexist"⟩).1.Headers.get "X-Context_type-Options"
        = some "nosniff") := by
  decide

/-- C9: in every response answered 200 the resolved head is non-empty, holds
no `/` and is a prefix of the path without the configured prefix; the resolved
tail is empty or starts with `/`; and the two are the `Head` and `Tail` the
template is executed on. -/
theorem found_head_tail_invariant (domain pfx redirectURL : String) (pkgMap : GoMap)
    (req : APIGatewayProxyRequest)
    (h : (handler domain pfx redirectURL pkgMap req).1.StatusCode = 200) :
    resolvedHead req.Path pfx ≠ "" ∧
    hasSlash (resolvedHead req.Path pfx) = false ∧
    (resolvedHead req.Path pfx).data <+: (TrimPrefix req.Path pfx).data ∧
    (resolvedTail req.Path pfx = "" ∨ startsWithSlash (resolvedTail req.Path pfx) = true) ∧
    ∃ repo, pkgMap.get (resolvedHead req.Path pfx) = some repo ∧
      handler domain pfx redirectURL pkgMap req =
        ({ StatusCode := 200,
           Headers := [("Cache-Control", "public, max-age=300")],
           Body := (Execute respTmpl
             { Domain := domain, Prefix := pfx, Head := resolvedHead req.Path pfx,
               Tail := resolvedTail req.Path pfx, Repo := repo }).1 }, none) := by
  obtain ⟨_, hne, hrepo⟩ := handler_found_of_status domain pfx redirectURL pkgMap req h
  refine ⟨hne, ?_, ?_, ?_, hrepo⟩
  · simp only [hasSlash, resolvedHead, splitPath_eq]
    exact takeWhile_notSlash_noSlash _
  · simp only [resolvedHead, splitPath_eq]
    exact List.takeWhile_prefix _
  · simp only [resolvedTail, splitPath_eq, startsWithSlash]
    rcases dropWhile_notSlash_head (TrimPrefix req.Path pfx).data with h0 | h1
    · left; rw [h0]
    · right; rw [h1]; rfl

/-- C9 at the test configuration: `GET /x/pkg1//sub` is answered 200 with head
`pkg1` and tail `//sub`. -/
theorem found_head_tail_invariant_witness :
    (handler "go.example.com" "/x/" "github.com/go/packages" testPkgMap
      ⟨"GET", "/x/pkg1//sub"⟩).1.StatusCode = 200 ∧
    resolvedHead "/x/pkg1//sub" "/x/" = "pkg1" ∧
    resolvedTail "/x/pkg1//sub" "/x/" = "//sub" ∧
    resolvedHead "/x/pkg1//sub" "/x/" ≠ "" ∧
    hasSlash (resolvedHead "/x/pkg1//sub" "/x/") = false ∧
    (resolvedTail "/x/pkg1//sub" "/x/" = "" ∨
      startsWithSlash (resolvedTail "/x/pkg1//sub" "/x/") = true) :=
  ⟨by decide, by decide, by decide,
   (found_head_tail_invariant "go.example.com" "/x/" "github.com/go/packages" testPkgMap
      ⟨"GET", "/x/pkg1//sub"⟩ (by decide)).1,
   (found_head_tail_invariant "go.example.com" "/x/" "github.com/go/packages" testPkgMap
      ⟨"GET", "/x/pkg1//sub"⟩ (by decide)).2.1,
   (found_head_tail_invariant "go.example.com" "/x/" "github.com/go/packages" testPkgMap
      ⟨"GET", "/x/pkg1//sub"⟩ (by decide)).2.2.2.1⟩

/-- C10: for every URL `u`, `httpRedirect` on a `GET` request with code 307
returns status 307, a nil error, the headers `Location` equal to `u` and
`Content-Type` equal to `text/html; charset=utf-8`, and the body
`<a href="` ++ `htmlEscape u` ++ `">Temporary Redirect</a>.` and a newline,
`Temporary Redirect` being `StatusText 307`. -/
theorem httpRedirect_get_307 (path u : String) :
    (httpRedirect ⟨"GET", path⟩ u 307).1.StatusCode = 307 ∧
    (httpRedirect ⟨"GET", path⟩ u 307).2 = none ∧
    (httpRedirect ⟨"GET", path⟩ u 307).1.Headers.get "Location" = some u ∧
    (httpRedirect ⟨"GET", path⟩ u 307).1.Headers.get "Content-Type"
      = some "text/html; charset=utf-8" ∧
    (httpRedirect ⟨"GET", path⟩ u 307).1.Body
      = "<a href=\"" ++ htmlEscape u ++ "\">Temporary Redirect</a>.\n" ∧
    StatusText 307 = "Temporary Redirect" := by
  refine ⟨rfl, rfl, ?_, ?_, ?_, by decide⟩
  · simp [httpRedirect, GoMap.get, GoMap.assign, List.lookup]
  · simp [httpRedirect, GoMap.get, GoMap.assign, List.lookup]
  · have hs : StatusText 307 = "Temporary Redirect" := by decide
    simp only [httpRedirect, hs, String.append_assoc]
    simp


/-! ## `htmlEscape`: lemmas -/

theorem htmlEscape_data (s : String) : (htmlEscape s).data = s.data.flatMap htmlReplacerChar :=
  rfl

theorem unescapeChars_image (c : Char) (rest : List Char) :
    unescapeChars 0 (htmlReplacerChar c ++ rest) = c :: unescapeChars 0 rest := by
  unfold htmlReplacerChar
  split_ifs with h1 h2 h3 h4 h5
  · subst h1
    simp [unescapeChars, entityAfterAmp, List.isPrefixOf]
  · subst h2
    simp [unescapeChars, entityAfterAmp, List.isPrefixOf]
  · subst h3
    simp [unescapeChars, entityAfterAmp, List.isPrefixOf]
  · subst h4
    simp [unescapeChars, entityAfterAmp, List.isPrefixOf]
  · subst h5
    simp [unescapeChars, entityAfterAmp, List.isPrefixOf]
  · simp [unescapeChars, h1]

theorem unescapeChars_flatMap (l : List Char) :
    unescapeChars 0 (l.flatMap htmlReplacerChar) = l := by
  induction l with
  | nil => rfl
  | cons c cs ih => rw [List.flatMap_cons, unescapeChars_image, ih]

theorem htmlUnescape_htmlEscape (s : String) : htmlUnescape (htmlEscape s) = s := by
  simp only [htmlUnescape, htmlEscape_data, unescapeChars_flatMap]

theorem htmlEscape_append (a b : String) :
    htmlEscape (a ++ b) = htmlEscape a ++ htmlEscape b := by
  apply String.ext
  simp only [htmlEscape_data, String.data_append, List.flatMap_append]

theorem htmlReplacerChar_of_not_special (c : Char)
    (h : c ∉ ['&', '<', '>', '"', Char.ofNat 39]) : htmlReplacerChar c = [c] := by
  simp only [List.mem_cons, List.mem_singleton, not_or, List.not_mem_nil, or_false] at h
  obtain ⟨h1, h2, h3, h4, h5⟩ := h
  simp [htmlReplacerChar, h1, h2, h3, h4, h5]

theorem flatMap_htmlReplacerChar_eq_self (l : List Char)
    (h : ∀ c ∈ l, c ∉ ['&', '<', '>', '"', Char.ofNat 39]) :
    l.flatMap htmlReplacerChar = l := by
  induction l with
  | nil => rfl
  | cons c cs ih =>
    have hc := htmlReplacerChar_of_not_special c (h c (List.mem_cons_self _ _))
    have ih2 := ih (fun x hx => h x (List.mem_cons_of_mem _ hx))
    simp [List.flatMap_cons, hc, ih2]

theorem htmlReplacerChar_eq_escapeImage (c : Char) :
    htmlReplacerChar c = (escapeImage c).data := by
  unfold htmlReplacerChar escapeImage
  split_ifs <;> rfl

theorem htmlEscape_of_htmlPlain (s : String) (h : htmlPlain s = true) : htmlEscape s = s := by
  have h2 : ∀ c ∈ s.data, c ∉ ['&', '<', '>', '"', Char.ofNat 39] := by
    simpa [htmlPlain, List.all_eq_true] using h
  apply String.ext
  rw [htmlEscape_data, flatMap_htmlReplacerChar_eq_self _ h2]

theorem htmlReplacerChar_no_delimiter (c x : Char) (hx : x ∈ htmlReplacerChar c) :
    x ∉ ['<', '>', '"', Char.ofNat 39] := by
  unfold htmlReplacerChar at hx
  split_ifs at hx with h1 h2 h3 h4 h5
  · revert x; decide
  · revert x; decide
  · revert x; decide
  · revert x; decide
  · revert x; decide
  · simp only [List.mem_singleton] at hx
    subst hx
    simp only [List.mem_cons, List.mem_singleton, List.not_mem_nil, or_false, not_or]
    exact ⟨h2, h3, h4, h5⟩

theorem htmlEscape_no_delimiter (s : String) (x : Char) (hx : x ∈ (htmlEscape s).data) :
    x ∉ ['<', '>', '"', Char.ofNat 39] := by
  rw [htmlEscape_data, List.mem_flatMap] at hx
  obtain ⟨c, _, hc⟩ := hx
  exact htmlReplacerChar_no_delimiter c x hc

/-- An `&` inside `w ++ rest`, where `w` holds no `&`, lies in `rest`. -/
theorem amp_split_skip (w pre post rest : List Char) (hw : '&' ∉ w)
    (h : pre ++ '&' :: post = w ++ rest) :
    ∃ pre2, pre = w ++ pre2 ∧ pre2 ++ '&' :: post = rest := by
  induction w generalizing pre with
  | nil => exact ⟨pre, rfl, h⟩
  | cons a w ih =>
    cases pre with
    | nil =>
      simp only [List.nil_append, List.cons_append, List.cons.injEq] at h
      exact absurd h.1 (fun e => hw (e ▸ List.mem_cons_self _ _))
    | cons b pre =>
      simp only [List.cons_append, List.cons.injEq] at h
      obtain ⟨rfl, h2⟩ := h
      obtain ⟨pre2, e1, e2⟩ := ih pre (fun m => hw (List.mem_cons_of_mem _ m)) h2
      exact ⟨pre2, by rw [e1]; rfl, e2⟩

theorem amp_followed_flatMap (l pre post : List Char)
    (h : l.flatMap htmlReplacerChar = pre ++ '&' :: post) :
    ∃ e ∈ entityTails, e.data <+: post := by
  induction l generalizing pre with
  | nil => simp at h
  | cons c cs ih =>
    rw [List.flatMap_cons] at h
    have key : ∀ (e : String), e ∈ entityTails → '&' ∉ e.data →
        htmlReplacerChar c = '&' :: e.data → ∃ e ∈ entityTails, e.data <+: post := by
      intro e he hamp hc
      rw [hc] at h
      cases pre with
      | nil =>
        simp only [List.nil_append, List.cons_append, List.cons.injEq, true_and] at h
        exact ⟨e, he, ⟨_, h⟩⟩
      | cons b pre =>
        simp only [List.cons_append, List.cons.injEq] at h
        obtain ⟨pre2, _, e2⟩ := amp_split_skip e.data pre post _ hamp h.2.symm
        exact ih pre2 e2.symm
    unfold htmlReplacerChar at h key
    split_ifs at h key with h1 h2 h3 h4 h5
    · exact key "amp;" (by decide) (by decide) rfl
    · exact key "lt;" (by decide) (by decide) rfl
    · exact key "gt;" (by decide) (by decide) rfl
    · exact key "#34;" (by decide) (by decide) rfl
    · exact key "#39;" (by decide) (by decide) rfl
    · cases pre with
      | nil =>
        simp only [List.nil_append, List.cons_append, List.cons.injEq] at h
        exact absurd h.1 h1
      | cons b pre =>
        simp only [List.cons_append, List.nil_append, List.cons.injEq] at h
        exact ih pre h.2

theorem count_quote_ite (c : Prop) [Decidable c] (a b : String)
    (ha : a.data.count '"' = 0) (hb : b.data.count '"' = 0) :
    (if c then a else b).data.count '"' = 0 := by
  split <;> assumption

theorem StatusText_no_quote (code : Int) : (StatusText code).data.count '"' = 0 := by
  unfold StatusText
  repeat (refine count_quote_ite _ _ _ (by decide) ?_)
  decide

theorem httpRedirect_get_body (path u : String) (code : Int) :
    (httpRedirect ⟨"GET", path⟩ u code).1.Body
      = "<a href=\"" ++ htmlEscape u ++ "\">" ++ StatusText code ++ "</a>.\n" := by
  simp [httpRedirect]

theorem htmlEscape_no_quote (s : String) : (htmlEscape s).data.count '"' = 0 := by
  rw [List.count_eq_zero]
  intro h
  have := htmlEscape_no_delimiter s '"' h
  simp at this

/-! ## The split of the path: further lemmas -/

theorem prefix_takeWhile_of_all (q l : List Char) (h : q <+: l) (hq : '/' ∉ q) :
    q <+: l.takeWhile (fun c => c != '/') := by
  induction q generalizing l with
  | nil => exact List.nil_prefix
  | cons a q ih =>
    cases l with
    | nil => simp at h
    | cons b l =>
      rw [List.cons_prefix_cons] at h
      obtain ⟨rfl, h2⟩ := h
      have ha : a ≠ '/' := fun e => hq (e ▸ List.mem_cons_self _ _)
      have hq2 : '/' ∉ q := fun m => hq (List.mem_cons_of_mem _ m)
      simp only [List.takeWhile_cons, bne_iff_ne, ne_eq, ha, not_false_eq_true, decide_True,
        if_true]
      rw [List.cons_prefix_cons]
      exact ⟨rfl, ih l h2 hq2⟩

theorem resolved_append_eq (path pfx : String) :
    resolvedHead path pfx ++ resolvedTail path pfx = TrimPrefix path pfx := by
  apply String.ext
  simp only [resolvedHead, resolvedTail, splitPath_eq, String.data_append,
    List.takeWhile_append_dropWhile]

theorem resolvedHead_of_startsWithSlash (path pfx : String)
    (h : startsWithSlash (TrimPrefix path pfx) = true) : resolvedHead path pfx = "" := by
  simp only [resolvedHead, splitPath_eq]
  simp only [startsWithSlash] at h
  cases hd : (TrimPrefix path pfx).data with
  | nil => simp [hd] at h
  | cons c r =>
    simp [hd] at h
    subst h
    simp

theorem TrimPrefix_of_not_hasPrefix (path pfx : String) (h : HasPrefix path pfx = false) :
    TrimPrefix path pfx = path := by
  simp [TrimPrefix, h]

theorem handler_redirect (domain pfx redirectURL : String) (pkgMap : GoMap) (path : String)
    (h : resolvedHead path pfx = "") :
    (handler domain pfx redirectURL pkgMap ⟨"GET", path⟩).1.StatusCode = 307 ∧
    (handler domain pfx redirectURL pkgMap ⟨"GET", path⟩).1.Headers.get "Location"
      = some redirectURL := by
  rw [handler, handlerOn_get _ _ _ _ _ _ rfl]
  simp [h, httpRedirect, StatusTemporaryRedirect, GoMap.get, GoMap.assign, List.lookup]

theorem indexFrom_bounds (l : List Char) (n : Nat) :
    indexFrom ['/'] l n = -1 ∨
      ((n : Int) ≤ indexFrom ['/'] l n ∧ indexFrom ['/'] l n ≤ ((n + l.length : Nat) : Int)) := by
  rw [indexFrom_slash]
  split
  · right
    have := (List.takeWhile_prefix (fun c => c != '/') (l := l)).length_le
    constructor <;> omega
  · left; rfl

/-! ## Claims on `htmlEscape`, the redirect and the split -/

/-- C11: `htmlEscape s` is the concatenation, in order, of the images of the
characters of `s` under the map `&` to `&amp;`, `<` to `&lt;`, `>` to `&gt;`,
`"` to `&#34;`, apostrophe to `&#39;`, any other character to itself; the
replacement text is not escaped again (`htmlEscape "&"` is `&amp;`);
`htmlEscape (a ++ b)` is `htmlEscape a ++ htmlEscape b`; and `htmlEscape` is the
identity on strings that hold none of the five characters. -/
theorem htmlEscape_characterisation :
    (∀ s : String, (htmlEscape s).data = s.data.flatMap (fun c => (escapeImage c).data)) ∧
    (escapeImage '&' = "&amp;" ∧ escapeImage '<' = "&lt;" ∧ escapeImage '>' = "&gt;" ∧
      escapeImage '"' = "&#34;" ∧ escapeImage (Char.ofNat 39) = "&#39;") ∧
    htmlEscape "&" = "&amp;" ∧
    (∀ a b : String, htmlEscape (a ++ b) = htmlEscape a ++ htmlEscape b) ∧
    (∀ s : String, htmlPlain s = true → htmlEscape s = s) := by
  refine ⟨?_, by decide, by decide, htmlEscape_append, htmlEscape_of_htmlPlain⟩
  intro s
  rw [htmlEscape_data]
  congr 1
  funext c
  exact htmlReplacerChar_eq_escapeImage c

/-- C11 on the fallback URL of the tests, which holds none of the five
characters: `htmlEscape` returns it unchanged. -/
theorem htmlEscape_characterisation_witness :
    htmlPlain "github.com/go/packages" = true ∧
    htmlEscape "github.com/go/packages" = "github.com/go/packages" :=
  ⟨by decide, htmlEscape_characterisation.2.2.2.2 "github.com/go/packages" (by decide)⟩

/-- C12: every response answered 200 carries the header `Cache-Control` with
the value `public, max-age=300`, for every domain, prefix, fallback URL,
mapping and request. -/
theorem found_has_cache_control (domain pfx redirectURL : String) (pkgMap : GoMap)
    (req : APIGatewayProxyRequest)
    (h : (handler domain pfx redirectURL pkgMap req).1.StatusCode = 200) :
    (handler domain pfx redirectURL pkgMap req).1.Headers.get "Cache-Control"
      = some "public, max-age=300" := by
  obtain ⟨_, _, repo, _, hr⟩ := handler_found_of_status domain pfx redirectURL pkgMap req h
  rw [hr]
  rfl

/-- C12 at the test configuration: `GET /x/pkg3` is answered 200 with
`Cache-Control: public, max-age=300`. -/
theorem found_has_cache_control_witness :
    (handler "go.example.com" "/x/" "github.com/go/packages" testPkgMap
      ⟨"GET", "/x/pkg3"⟩).1.StatusCode = 200 ∧
    (handler "go.example.com" "/x/" "github.com/go/packages" testPkgMap
      ⟨"GET", "/x/pkg3"⟩).1.Headers.get "Cache-Control" = some "public, max-age=300" :=
  ⟨by decide,
   found_has_cache_control "go.example.com" "/x/" "github.com/go/packages" testPkgMap
     ⟨"GET", "/x/pkg3"⟩ (by decide)⟩

/-- C13: `handler` is a total function of the configuration and the request
(any method, any path, the empty path and paths outside the prefix included)
and the error it returns is nil, whatever the outcome of the template
execution; the index `i` of line 40 is `-1` or lies between `0` and the length
of the stripped path, so the slices `head[:i]` and `head[i:]` are in bounds. -/
theorem handler_error_is_nil (execute : TmplData → String × GoError)
    (domain pfx redirectURL : String) (pkgMap : GoMap) (req : APIGatewayProxyRequest) :
    (handler domain pfx redirectURL pkgMap req).2 = none ∧
    (handlerOn execute domain pfx redirectURL pkgMap req).2 = none ∧
    (Index (TrimPrefix req.Path pfx) "/" = -1 ∨
      (0 ≤ Index (TrimPrefix req.Path pfx) "/" ∧
        Index (TrimPrefix req.Path pfx) "/"
          ≤ ((TrimPrefix req.Path pfx).data.length : Int))) := by
  have key : ∀ ex : TmplData → String × GoError,
      (handlerOn ex domain pfx redirectURL pkgMap req).2 = none := by
    intro ex
    by_cases hm : req.HTTPMethod = "GET"
    · rw [handlerOn_get _ _ _ _ _ _ hm]
      by_cases hh : resolvedHead req.Path pfx = ""
      · simp [hh, httpRedirect]
      · cases hk : pkgMap.get (resolvedHead req.Path pfx) with
        | none => simp [hh, hk, httpNotFound, httpError]
        | some repo => simp [hh, hk]
    · rw [handlerOn_of_not_get _ _ _ _ _ _ hm]
      rfl
  refine ⟨key _, key _, ?_⟩
  have hb := indexFrom_bounds (TrimPrefix req.Path pfx).data 0
  simpa [Index] using hb

/-- C14: with `rest` the path after `TrimPrefix`, the resolved head and tail
satisfy `head ++ tail = rest`; the head holds no `/` and every prefix of `rest`
without `/` is a prefix of the head; when `rest` holds no `/` the head is `rest`
and the tail is empty; otherwise the tail starts with `/` and is a suffix of
`rest`.  Nothing is normalised: after a name `p` without `/`, a sub-path `t`
starting with `/` is the tail, unchanged. -/
theorem split_characterisation (path pfx : String) :
    resolvedHead path pfx ++ resolvedTail path pfx = TrimPrefix path pfx ∧
    hasSlash (resolvedHead path pfx) = false ∧
    (∀ q : String, q.data <+: (TrimPrefix path pfx).data → hasSlash q = false →
      q.data <+: (resolvedHead path pfx).data) ∧
    (hasSlash (TrimPrefix path pfx) = false →
      resolvedHead path pfx = TrimPrefix path pfx ∧ resolvedTail path pfx = "") ∧
    (hasSlash (TrimPrefix path pfx) = true →
      startsWithSlash (resolvedTail path pfx) = true ∧
      (resolvedTail path pfx).data <:+ (TrimPrefix path pfx).data) ∧
    (∀ p t : String, hasSlash p = false → startsWithSlash t = true →
      resolvedHead (pfx ++ p ++ t) pfx = p ∧ resolvedTail (pfx ++ p ++ t) pfx = t) := by
  refine ⟨resolved_append_eq path pfx, ?_, ?_, ?_, ?_, ?_⟩
  · simp only [hasSlash, resolvedHead, splitPath_eq]
    exact takeWhile_notSlash_noSlash _
  · intro q hq hs
    simp only [resolvedHead, splitPath_eq]
    exact prefix_takeWhile_of_all _ _ hq (by simpa [hasSlash] using hs)
  · intro hs
    have hn : '/' ∉ (TrimPrefix path pfx).data := by simpa [hasSlash] using hs
    have h := takeWhile_notSlash_append (TrimPrefix path pfx).data [] hn (Or.inl rfl)
    simp only [List.append_nil] at h
    simp only [resolvedHead, resolvedTail, splitPath_eq, h.1, h.2, true_and]
  · intro hs
    have hm : '/' ∈ (TrimPrefix path pfx).data := by simpa [hasSlash] using hs
    refine ⟨?_, ?_⟩
    · simp only [resolvedTail, splitPath_eq, startsWithSlash]
      rcases dropWhile_notSlash_head (TrimPrefix path pfx).data with h0 | h1
      · exfalso
        rw [List.dropWhile_eq_nil_iff] at h0
        have := h0 '/' hm
        simp at this
      · rw [h1]; rfl
    · simp only [resolvedTail, splitPath_eq]
      exact List.dropWhile_suffix _
  · intro p t hp ht
    exact resolved_append pfx p t hp (Or.inr ht)

/-- C14 on a path with runs of slashes: for `/x/pkg1//sub///dir` and the
prefix `/x/` the head is `pkg1` and the tail is `//sub///dir`. -/
theorem split_characterisation_witness :
    hasSlash (TrimPrefix "/x/pkg1//sub///dir" "/x/") = true ∧
    resolvedHead "/x/pkg1//sub///dir" "/x/" = "pkg1" ∧
    resolvedTail "/x/pkg1//sub///dir" "/x/" = "//sub///dir" ∧
    startsWithSlash (resolvedTail "/x/pkg1//sub///dir" "/x/") = true ∧
    resolvedTail ("/x/" ++ "pkg1" ++ "//sub///dir") "/x/" = "//sub///dir" :=
  ⟨by decide, by decide, by decide,
   ((split_characterisation "/x/pkg1//sub///dir" "/x/").2.2.2.2.1 (by decide)).1,
   ((split_characterisation "/x/pkg1//sub///dir" "/x/").2.2.2.2.2 "pkg1" "//sub///dir"
      (by decide) (by decide)).2⟩

/-- C15: for every URL `u` and status code, `httpRedirect` on a `HEAD` request
returns that code with the headers `Location` equal to `u` and `Content-Type`
equal to `text/html; charset=utf-8`, no other header, and the empty body; for
every method other than `GET` the body is empty; and for every method other
than `GET` and `HEAD` the only header is `Location`. -/
theorem httpRedirect_without_body (req : APIGatewayProxyRequest) (path u : String)
    (code : Int) :
    ((httpRedirect ⟨"HEAD", path⟩ u code).1.StatusCode = code ∧
      (httpRedirect ⟨"HEAD", path⟩ u code).1.Headers.get "Location" = some u ∧
      (httpRedirect ⟨"HEAD", path⟩ u code).1.Headers.get "Content-Type"
        = some "text/html; charset=utf-8" ∧
      (∀ k : String, k ≠ "Location" → k ≠ "Content-Type" →
        (httpRedirect ⟨"HEAD", path⟩ u code).1.Headers.get k = none) ∧
      (httpRedirect ⟨"HEAD", path⟩ u code).1.Body = "") ∧
    (req.HTTPMethod ≠ "GET" → (httpRedirect req u code).1.Body = "") ∧
    (req.HTTPMethod ≠ "GET" → req.HTTPMethod ≠ "HEAD" →
      (httpRedirect req u code).1.Headers = [("Location", u)] ∧
      ∀ k : String, k ≠ "Location" → (httpRedirect req u code).1.Headers.get k = none) := by
  refine ⟨⟨rfl, ?_, ?_, ?_, ?_⟩, ?_, ?_⟩
  · simp [httpRedirect, GoMap.get, GoMap.assign, List.lookup]
  · simp [httpRedirect, GoMap.get, GoMap.assign, List.lookup]
  · intro k h1 h2
    have b1 : (k == "Location") = false := by simpa using h1
    have b2 : (k == "Content-Type") = false := by simpa using h2
    simp [httpRedirect, GoMap.get, GoMap.assign, List.lookup, b1, b2]
  · simp [httpRedirect]
  · intro h
    simp [httpRedirect, h]
  · intro h1 h2
    refine ⟨by simp [httpRedirect, h1, h2], ?_⟩
    intro k hk
    have b1 : (k == "Location") = false := by simpa using hk
    simp [httpRedirect, h1, h2, GoMap.get, List.lookup, b1]

/-- C15 on a `POST` request: the redirect has the empty body and `Location` as
its only header. -/
theorem httpRedirect_without_body_witness :
    ("POST" : String) ≠ "GET" ∧ ("POST" : String) ≠ "HEAD" ∧
    (httpRedirect ⟨"POST", "/x/"⟩ "github.com/go/packages" 307).1.Body = "" ∧
    (httpRedirect ⟨"POST", "/x/"⟩ "github.com/go/packages" 307).1.Headers
      = [("Location", "github.com/go/packages")] :=
  ⟨by decide, by decide,
   (httpRedirect_without_body ⟨"POST", "/x/"⟩ "/x/" "github.com/go/packages" 307).2.1
     (by decide),
   ((httpRedirect_without_body ⟨"POST", "/x/"⟩ "/x/" "github.com/go/packages" 307).2.2
     (by decide) (by decide)).1⟩

/-- C16, as the code has it: for every `GET` request whose head is non-empty
and a key of the mapping, and for every outcome of the template execution (any
buffer content, nil or non-nil error), the response has status 200, the header
`Cache-Control`, the content of the buffer as its body, and the error returned
is nil. -/
theorem found_ignores_render_error (execute : TmplData → String × GoError)
    (domain pfx redirectURL : String) (pkgMap : GoMap) (req : APIGatewayProxyRequest)
    (repo : String) (hm : req.HTTPMethod = "GET") (hh : resolvedHead req.Path pfx ≠ "")
    (hk : pkgMap.get (resolvedHead req.Path pfx) = some repo) :
    (handlerOn execute domain pfx redirectURL pkgMap req).1.StatusCode = 200 ∧
    (handlerOn execute domain pfx redirectURL pkgMap req).2 = none ∧
    (handlerOn execute domain pfx redirectURL pkgMap req).1.Body =
      (execute { Domain := domain, Prefix := pfx, Head := resolvedHead req.Path pfx,
                 Tail := resolvedTail req.Path pfx, Repo := repo }).1 ∧
    (handler domain pfx redirectURL pkgMap req).1.StatusCode = 200 ∧
    (handler domain pfx redirectURL pkgMap req).2 = none := by
  have key : ∀ ex : TmplData → String × GoError,
      handlerOn ex domain pfx redirectURL pkgMap req =
        ({ StatusCode := 200,
           Headers := [("Cache-Control", "public, max-age=300")],
           Body := (ex { Domain := domain, Prefix := pfx, Head := resolvedHead req.Path pfx,
                         Tail := resolvedTail req.Path pfx, Repo := repo }).1 }, none) := by
    intro ex
    rw [handlerOn_get _ _ _ _ _ _ hm]
    simp [hh, hk]
  rw [handler, key execute, key (Execute respTmpl)]
  exact ⟨rfl, rfl, rfl, rfl, rfl⟩

/-- C16 with an execution that fails after writing `<!DOCTYPE html>`: the
response to `GET /x/pkg1` still has status 200 and a nil error, and its body is
the text written before the failure. -/
theorem found_ignores_render_error_witness :
    (handlerOn (fun _ => ("<!DOCTYPE html>", some "write failed"))
      "go.example.com" "/x/" "github.com/go/packages" testPkgMap
      ⟨"GET", "/x/pkg1"⟩).1.StatusCode = 200 ∧
    (handlerOn (fun _ => ("<!DOCTYPE html>", some "write failed"))
      "go.example.com" "/x/" "github.com/go/packages" testPkgMap
      ⟨"GET", "/x/pkg1"⟩).2 = none ∧
    (handlerOn (fun _ => ("<!DOCTYPE html>", some "write failed"))
      "go.example.com" "/x/" "github.com/go/packages" testPkgMap
      ⟨"GET", "/x/pkg1"⟩).1.Body = "<!DOCTYPE html>" :=
  ⟨(found_ignores_render_error (fun _ => ("<!DOCTYPE html>", some "write failed"))
      "go.example.com" "/x/" "github.com/go/packages" testPkgMap ⟨"GET", "/x/pkg1"⟩
      "me/pkg1" rfl (by decide) (by decide)).1,
   (found_ignores_render_error (fun _ => ("<!DOCTYPE html>", some "write failed"))
      "go.example.com" "/x/" "github.com/go/packages" testPkgMap ⟨"GET", "/x/pkg1"⟩
      "me/pkg1" rfl (by decide) (by decide)).2.1,
   (found_ignores_render_error (fun _ => ("<!DOCTYPE html>", some "write failed"))
      "go.example.com" "/x/" "github.com/go/packages" testPkgMap ⟨"GET", "/x/pkg1"⟩
      "me/pkg1" rfl (by decide) (by decide)).2.2.1⟩

/-- C16 fails as stated: with the empty string as a key of the mapping, the
head of `GET /x/` is a key, and the status is 307, not 200, for the package
template and for an execution that fails alike. -/
theorem found_ignores_render_error_counterexample :
    resolvedHead "/x/" "/x/" = "" ∧
    GoMap.get [("", "me/root")] (resolvedHead "/x/" "/x/") = some "me/root" ∧
    (handler "go.example.com" "/x/" "github.com/go/packages" [("", "me/root")]
      ⟨"GET", "/x/"⟩).1.StatusCode = 307 ∧
    (handlerOn (fun _ => ("<!DOCTYPE html>", some "write failed"))
      "go.example.com" "/x/" "github.com/go/packages" [("", "me/root")]
      ⟨"GET", "/x/"⟩).1.StatusCode = 307 := by
  decide

/-- C17: a `GET` whose path starts with `/` and does not start with the
configured prefix keeps its whole path, resolves the empty head and is answered
307 with `Location` equal to the fallback URL, never 404 or 200, whatever the
mapping holds; and a `GET` to the prefix followed by `/` and any text is
answered 307 in the same way. -/
theorem get_outside_prefix_redirects (domain pfx redirectURL : String) (pkgMap : GoMap)
    (path rest : String) :
    (startsWithSlash path = true → HasPrefix path pfx = false →
      TrimPrefix path pfx = path ∧ resolvedHead path pfx = "" ∧
      (handler domain pfx redirectURL pkgMap ⟨"GET", path⟩).1.StatusCode = 307 ∧
      (handler domain pfx redirectURL pkgMap ⟨"GET", path⟩).1.StatusCode ≠ 404 ∧
      (handler domain pfx redirectURL pkgMap ⟨"GET", path⟩).1.StatusCode ≠ 200 ∧
      (handler domain pfx redirectURL pkgMap ⟨"GET", path⟩).1.Headers.get "Location"
        = some redirectURL) ∧
    (resolvedHead (pfx ++ "/" ++ rest) pfx = "" ∧
      (handler domain pfx redirectURL pkgMap ⟨"GET", pfx ++ "/" ++ rest⟩).1.StatusCode = 307 ∧
      (handler domain pfx redirectURL pkgMap ⟨"GET", pfx ++ "/" ++ rest⟩).1.Headers.get
        "Location" = some redirectURL) := by
  constructor
  · intro hs hp
    have ht := TrimPrefix_of_not_hasPrefix path pfx hp
    have hh : resolvedHead path pfx = "" :=
      resolvedHead_of_startsWithSlash path pfx (by rw [ht]; exact hs)
    obtain ⟨h1, h2⟩ := handler_redirect domain pfx redirectURL pkgMap path hh
    refine ⟨ht, hh, h1, ?_, ?_, h2⟩
    · rw [h1]; decide
    · rw [h1]; decide
  · have hh : resolvedHead (pfx ++ "/" ++ rest) pfx = "" := by
      apply resolvedHead_of_startsWithSlash
      rw [String.append_assoc, TrimPrefix_append]
      simp [startsWithSlash, String.data_append]
    obtain ⟨h1, h2⟩ := handler_redirect domain pfx redirectURL pkgMap _ hh
    exact ⟨hh, h1, h2⟩

/-- C17 at the test configuration: `GET /y/pkg1` does not start with `/x/` and
is answered 307 although `pkg1` is a key; `GET /x//pkg1` is answered 307 too. -/
theorem get_outside_prefix_redirects_witness :
    startsWithSlash "/y/pkg1" = true ∧ HasPrefix "/y/pkg1" "/x/" = false ∧
    (handler "go.example.com" "/x/" "github.com/go/packages" testPkgMap
      ⟨"GET", "/y/pkg1"⟩).1.StatusCode = 307 ∧
    (handler "go.example.com" "/x/" "github.com/go/packages" testPkgMap
      ⟨"GET", "/x/" ++ "/" ++ "pkg1"⟩).1.StatusCode = 307 :=
  ⟨by decide, by decide,
   ((get_outside_prefix_redirects "go.example.com" "/x/" "github.com/go/packages" testPkgMap
      "/y/pkg1" "pkg1").1 (by decide) (by decide)).2.2.1,
   (get_outside_prefix_redirects "go.example.com" "/x/" "github.com/go/packages" testPkgMap
      "/y/pkg1" "pkg1").2.2.1⟩

/-- C18: for every string `s`, `htmlEscape s` holds none of the characters
`<`, `>`, `"` and apostrophe, and every `&` in it is followed at once by one of
`amp;`, `lt;`, `gt;`, `#34;`, `#39;`; hence, for every URL `u` and status code,
the body `httpRedirect` builds for `GET`, which is `<a href="`, `htmlEscape u`,
`">`, the reason phrase and `</a>.` with a newline, holds exactly two `"`: the
delimiters of the `href` attribute. -/
theorem htmlEscape_keeps_attribute_closed (s u path : String) (code : Int) :
    (∀ x : Char, x ∈ (htmlEscape s).data → x ∉ ['<', '>', '"', Char.ofNat 39]) ∧
    (∀ pre post : List Char, (htmlEscape s).data = pre ++ '&' :: post →
      ∃ e ∈ entityTails, e.data <+: post) ∧
    (httpRedirect ⟨"GET", path⟩ u code).1.Body
      = "<a href=\"" ++ htmlEscape u ++ "\">" ++ StatusText code ++ "</a>.\n" ∧
    (httpRedirect ⟨"GET", path⟩ u code).1.Body.data.count '"' = 2 := by
  refine ⟨htmlEscape_no_delimiter s, ?_, httpRedirect_get_body path u code, ?_⟩
  · intro pre post h
    rw [htmlEscape_data] at h
    exact amp_followed_flatMap s.data pre post h
  · rw [httpRedirect_get_body]
    simp only [String.data_append, List.count_append, htmlEscape_no_quote,
      StatusText_no_quote]
    decide

/-- C18 on the URL `"><script>&`: the `&` that `htmlEscape` writes for the `"`
is followed by `#34;`, and the redirect body holds exactly two `"`. -/
theorem htmlEscape_keeps_attribute_closed_witness :
    (htmlEscape "\"><script>&").data = [] ++ '&' :: "#34;&gt;&lt;script&gt;&amp;".data ∧
    (∃ e ∈ entityTails, e.data <+: "#34;&gt;&lt;script&gt;&amp;".data) ∧
    (httpRedirect ⟨"GET", "/x/"⟩ "\"><script>&" 307).1.Body.data.count '"' = 2 :=
  ⟨by decide,
   (htmlEscape_keeps_attribute_closed "\"><script>&" "\"><script>&" "/x/" 307).2.1
     [] "#34;&gt;&lt;script&gt;&amp;".data (by decide),
   (htmlEscape_keeps_attribute_closed "\"><script>&" "\"><script>&" "/x/" 307).2.2.2⟩

/-- C19: `htmlEscape` is injective, `htmlUnescape` being a left inverse
(`htmlUnescape (htmlEscape s) = s` for every `s`); it is not idempotent:
`htmlEscape (htmlEscape "&")` is `&amp;amp;`, which differs from
`htmlEscape "&"`. -/
theorem htmlEscape_injective_not_idempotent :
    (∀ s t : String, htmlEscape s = htmlEscape t → s = t) ∧
    (∀ s : String, htmlUnescape (htmlEscape s) = s) ∧
    htmlEscape (htmlEscape "&") = "&amp;amp;" ∧
    htmlEscape (htmlEscape "&") ≠ htmlEscape "&" := by
  refine ⟨?_, htmlUnescape_htmlEscape, by decide, by decide⟩
  intro s t h
  have h2 := congrArg htmlUnescape h
  rwa [htmlUnescape_htmlEscape, htmlUnescape_htmlEscape] at h2

/-- C19 on two spellings of one string: `a&b<` and `a&` ++ `b<` have the same
escaped text `a&amp;b&lt;`, and are equal. -/
theorem htmlEscape_injective_not_idempotent_witness :
    htmlEscape "a&b<" = "a&amp;b&lt;" ∧ htmlEscape "a&b<" = htmlEscape ("a&" ++ "b<") ∧
    "a&b<" = "a&" ++ "b<" ∧ htmlUnescape "a&amp;b&lt;" = "a&b<" :=
  ⟨by decide, by decide,
   htmlEscape_injective_not_idempotent.1 "a&b<" ("a&" ++ "b<") (by decide),
   by decide⟩


end Splendor
